import Mathlib

/-!
# procmanager: PID files, liveness polling and the stop / restart protocol

A shallow embedding of the Go sources under `cmd/` (`start.go`, `stop.go`,
`status.go`, `restart.go`).

* Go `string`s whose bytes are inspected (the PID-file content) are lists of
  bytes; strings that are only compared (paths, command-line arguments) are
  Lean strings.
* Go `int` is the 64-bit signed integer; it is an `Int` here and every place
  where the Go code could wrap applies `toInt64` / `% 2^64` explicitly.
* The operating system is an explicit environment of oracles (`Env`) plus an
  explicit state (`World`): the file system seen through `os.ReadFile`,
  `os.WriteFile`, `os.Remove`, and the record of what the command printed,
  probed, signalled, spawned and tried to remove.  Every system call that can
  fail has an oracle for its outcome.
* `os.Exit` ends a command at once; `Step` distinguishes it from a normal
  return of the command's `Run` function (exit code 0).
-/

namespace Procmanager

/-! ## Bytes and `strconv` -/

/-- One byte of a Go string. -/
abbrev Byte := Fin 256

/-- The two failure kinds of `strconv` (`ErrSyntax`, `ErrRange`). -/
inductive NumError where
  | errSyntax
  | errRange
  deriving DecidableEq, Repr

/-- Conversion of an integer to Go's `int64` (two's complement wrap-around). -/
def toInt64 (x : Int) : Int :=
  (x + 9223372036854775808) % 18446744073709551616 - 9223372036854775808

/-- The constant `maxUint64` of `strconv`. -/
def maxUint64 : Nat := 18446744073709551615

/-- The digit loop of `strconv.ParseUint(s, 10, 0)` on a 64-bit platform:
`cutoff = maxUint64/10 + 1`, `maxVal = 1<<64 - 1`.  A byte that is not a
decimal digit is a syntax error (a letter yields a digit value `>= 10 = base`,
which is the same syntax error); an overflow of `n*10` or of `n + d` is a range
error with value `maxVal`. -/
def parseUintLoop : List Byte → Nat → Nat × Option NumError
  | [], n => (n, none)
  | c :: rest, n =>
    if 48 ≤ c.val ∧ c.val ≤ 57 then
      let d := c.val - 48
      if n ≥ maxUint64 / 10 + 1 then (maxUint64, some NumError.errRange)
      else
        let n10 := (n * 10) % 18446744073709551616
        let n1 := (n10 + d) % 18446744073709551616
        if n1 < n10 ∨ n1 > maxUint64 then (maxUint64, some NumError.errRange)
        else parseUintLoop rest n1
    else (0, some NumError.errSyntax)

/-- The function `strconv.ParseUint(s, 10, 0)`. -/
def ParseUint (s : List Byte) : Nat × Option NumError :=
  if s = [] then (0, some NumError.errSyntax) else parseUintLoop s 0

/-- The function `strconv.ParseInt(s, 10, 0)`: an optional leading sign, then
`ParseUint`, then the range check against `cutoff = 1 << 63`. -/
def ParseInt (s : List Byte) : Int × Option NumError :=
  match s with
  | [] => (0, some NumError.errSyntax)
  | c :: rest =>
    let neg : Bool := decide (c.val = 45)
    let body := if c.val = 43 ∨ c.val = 45 then rest else s
    match ParseUint body with
    | (_, some NumError.errSyntax) => (0, some NumError.errSyntax)
    | (un, _) =>
      let cutoff : Nat := 9223372036854775808
      if neg = false ∧ un ≥ cutoff then ((cutoff : Int) - 1, some NumError.errRange)
      else if neg = true ∧ un > cutoff then (-(cutoff : Int), some NumError.errRange)
      else
        let n := toInt64 (un : Int)
        (if neg then toInt64 (-n) else n, none)

/-- The digit loop of the fast path of `strconv.Atoi`: `ch -= '0'` is byte
arithmetic, `n = n*10 + int(ch)` is `int` arithmetic.  The result `none` is the
syntax error. -/
def atoiFastLoop : List Byte → Int → Option Int
  | [], n => some n
  | ch :: rest, n =>
    let d := (ch.val + 256 - 48) % 256
    if d > 9 then none else atoiFastLoop rest (toInt64 (n * 10 + (d : Int)))

/-- The function `strconv.Atoi` on a 64-bit platform: strings of 1 to 18 bytes
take the fast path, all others go through `ParseInt(s, 10, 0)`. -/
def Atoi (s : List Byte) : Int × Option NumError :=
  match s with
  | [] =>
    match ParseInt [] with
    | (i64, err) => (toInt64 i64, err)
  | c :: rest =>
    if s.length < 19 then
      let signed : Bool := decide (c.val = 45 ∨ c.val = 43)
      let body := if signed then rest else s
      if signed = true ∧ body.length < 1 then (0, some NumError.errSyntax)
      else
        match atoiFastLoop body 0 with
        | none => (0, some NumError.errSyntax)
        | some n => (if c.val = 45 then toInt64 (-n) else n, none)
    else
      match ParseInt s with
      | (i64, err) => (toInt64 i64, err)

/-- The ASCII digit for `d % 10`. -/
def digitByte (d : Nat) : Byte := ⟨48 + d % 10, by omega⟩

/-- Decimal digits of `n`, most significant first, prepended to `acc` (the
buffer of `strconv.formatBits` is filled from its end).  The first argument
bounds the number of digits; `formatNat` passes a bound that is never reached. -/
def formatDigits : Nat → Nat → List Byte → List Byte
  | 0, _, acc => acc
  | fuel + 1, n, acc =>
    if n < 10 then digitByte n :: acc
    else formatDigits fuel (n / 10) (digitByte (n % 10) :: acc)

/-- Decimal text of a natural number. -/
def formatNat (n : Nat) : List Byte := formatDigits (n + 1) n []

/-- The function `strconv.Itoa`: decimal text, with a leading `-` for a
negative number. -/
def Itoa (i : Int) : List Byte :=
  if i < 0 then (45 : Byte) :: formatNat (-i).toNat else formatNat i.toNat

/-! ## Reference reading of a PID-file content -/

/-- Is the byte an ASCII decimal digit? -/
def isDigit (c : Byte) : Bool := decide (48 ≤ c.val ∧ c.val ≤ 57)

/-- Value of a digit string read in base ten, starting from `n`. -/
def decFold (n : Nat) (ds : List Byte) : Nat :=
  ds.foldl (fun a c => a * 10 + (c.val - 48)) n

/-- Value of a digit string read in base ten. -/
def decValue (ds : List Byte) : Nat := decFold 0 ds

/-- Reference parser, independent of `strconv`: an optional single sign
(`+` or `-`), then one or more ASCII digits and nothing else; the signed value
must fit Go's 64-bit `int`. -/
def parseSigned (s : List Byte) : Option Int :=
  match s with
  | [] => none
  | c :: rest =>
    let neg : Bool := decide (c.val = 45)
    let ds := if c.val = 45 ∨ c.val = 43 then rest else s
    if ds ≠ [] ∧ ds.all isDigit = true then
      let v : Int := if neg then -(decValue ds : Int) else (decValue ds : Int)
      if -9223372036854775808 ≤ v ∧ v < 9223372036854775808 then some v else none
    else none

/-! ## Operating-system model -/

/-- The two signals the commands send (`syscall.SIGTERM`, `syscall.SIGKILL`).
The liveness probe's signal 0 is not one of them: it is recorded as a poll. -/
inductive Signal where
  | SIGTERM
  | SIGKILL
  deriving DecidableEq, Repr

/-- Why `readPidFile` failed: `os.ReadFile` returned an error, or
`strconv.Atoi` did. -/
inductive PidFileError where
  | readFailed
  | parseFailed (e : NumError)
  deriving DecidableEq, Repr

/-- The lines the commands print, one constructor per `fmt.Printf` /
`fmt.Println` call site (the error detail of `%v` is dropped). -/
inductive Msg where
  /-- start.go:60 "程序已经在运行，PID: %d" -/
  | alreadyRunning (pid : Int)
  /-- start.go:103, 165 "无法打开日志文件" -/
  | logOpenFailed
  /-- start.go:116 "启动程序失败" -/
  | startFailed
  /-- start.go:125 "程序已启动，PID: %d" -/
  | started (pid : Int)
  /-- start.go:130 "程序异常退出" -/
  | exitedAbnormally
  /-- start.go:177 "无法打开/dev/null" -/
  | devNullFailed
  /-- start.go:191 "启动守护进程失败" -/
  | daemonStartFailed
  /-- start.go:201 "程序已在后台启动，PID: %d" -/
  | daemonStarted (pid : Int)
  /-- start.go:233 "无法写入PID文件" -/
  | pidWriteFailed
  /-- stop.go:38, status.go:27, restart.go:40 "错误: 必须指定PID文件路径" -/
  | pidPathMissing
  /-- stop.go:45, status.go:34 "程序未运行: %v" -/
  | notRunning (e : PidFileError)
  /-- stop.go:52 "无法找到进程 (PID: %d)" -/
  | findFailed (pid : Int)
  /-- stop.go:60, restart.go:48 "正在停止进程 (PID: %d)..." -/
  | stopping (pid : Int)
  /-- stop.go:64, restart.go:54 "无法发送终止信号" -/
  | termSendFailed
  /-- stop.go:73, restart.go:63 "程序已停止" -/
  | stopped
  /-- stop.go:81, restart.go:71 "程序未在超时时间内停止，尝试强制终止..." -/
  | escalating
  /-- stop.go:85 "正在强制终止进程 (PID: %d)..." -/
  | forceKilling (pid : Int)
  /-- stop.go:88 "无法强制终止进程" -/
  | killSendFailed
  /-- stop.go:97, restart.go:77 "程序已强制终止" -/
  | forceKilled
  /-- stop.go:105, restart.go:82 "无法终止程序，请手动检查" -/
  | cannotTerminate
  /-- status.go:41 "程序正在运行，PID: %d" -/
  | running (pid : Int)
  /-- status.go:44 "程序未运行，但PID文件存在 (PID: %d)" -/
  | staleFile (pid : Int)
  /-- restart.go:90 "正在启动程序..." -/
  | starting
  deriving DecidableEq, Repr

/-- What the operating system answers during one run of a command.  Every
answer may depend on how many questions of its kind were asked before, so a
process may die between two probes and a signal may fail the second time. -/
structure Env where
  /-- Does signal 0 reach `pid` at the probe with this index (0-based)? -/
  alive : Int → Nat → Bool
  /-- Is the signal delivered at the send with this index (0-based)? -/
  deliver : Int → Signal → Nat → Bool
  /-- Does `os.OpenFile` succeed on this path? -/
  openOk : String → Bool
  /-- The result of `cmd.Start()` for an argument vector: the child's PID, or
  `none` when the spawn fails. -/
  procStart : List String → Option Int
  /-- Does `cmd.Wait()` return without error? -/
  waitOk : Bool
  /-- Does `os.WriteFile` succeed on this path? -/
  writeOk : String → Bool
  /-- How a failing `os.WriteFile` leaves the file: `none` when the open
  itself fails (file untouched), `some k` when the file was opened, hence
  truncated, and only the first `k` bytes were written. -/
  writePartial : String → Option Nat
  /-- Does `os.Remove` succeed on this path at the call with this index
  (0-based)? -/
  removeOk : String → Nat → Bool

/-- The state a command acts on, and the record of what it did. -/
structure World where
  /-- The file system: the content `os.ReadFile` returns, `none` when it fails. -/
  files : String → Option (List Byte)
  /-- Lines printed, oldest first. -/
  out : List Msg
  /-- Liveness probes made, oldest first, each with its answer. -/
  polls : List (Int × Bool)
  /-- Signals sent, oldest first, each with whether it was delivered. -/
  signals : List (Int × Signal × Bool)
  /-- Calls of `cmd.Start()`, oldest first: argument vector and result. -/
  spawns : List (List String × Option Int)
  /-- Calls of `os.Remove`, oldest first: path and whether it succeeded. -/
  removes : List (String × Bool)

/-- A fresh run on a file system: nothing printed, probed, sent or spawned. -/
def World.init (fs : String → Option (List Byte)) : World :=
  { files := fs, out := [], polls := [], signals := [], spawns := [], removes := [] }

/-- One `fmt.Printf` / `fmt.Println`. -/
def World.print (w : World) (m : Msg) : World :=
  { w with out := w.out ++ [m] }

/-- The call `os.Remove(path)`.  It may fail, and every call site discards
its error: on success the file is gone, on failure the files are as before. -/
def World.remove (env : Env) (w : World) (path : String) : World :=
  let ok := env.removeOk path w.removes.length
  { w with
    files := if ok then (fun q => if q = path then none else w.files q) else w.files
    removes := w.removes ++ [(path, ok)] }

/-- A successful `os.WriteFile(path, data, 0644)`. -/
def World.store (w : World) (path : String) (data : List Byte) : World :=
  { w with files := fun q => if q = path then some data else w.files q }

/-- A successful `os.OpenFile(path, O_CREATE|O_APPEND|O_WRONLY, 0644)`: the
file is created empty when it was absent and left as it is otherwise. -/
def World.create (w : World) (path : String) : World :=
  match w.files path with
  | none => w.store path []
  | some _ => w

/-- One call of `cmd.Start()`. -/
def World.spawn (w : World) (argv : List String) (res : Option Int) : World :=
  { w with spawns := w.spawns ++ [(argv, res)] }

/-- How a command ends: its `Run` function returns (the process then exits
with code 0), or `os.Exit(code)` is called. -/
inductive Step where
  | returned (w : World)
  | exited (code : Nat) (w : World)

/-- The final state of a run. -/
def Step.world : Step → World
  | Step.returned w => w
  | Step.exited _ w => w

/-- The exit code of the process. -/
def Step.exitCode : Step → Nat
  | Step.returned _ => 0
  | Step.exited code _ => code

/-- The package-level flag variables, and `os.Args[0]`. -/
structure Config where
  /-- The value of `os.Args[0]`. -/
  self : String
  /-- Flag `--daemon` / `-d`. -/
  daemonize : Bool
  /-- Flag `--log` / `-l`. -/
  logFile : String
  /-- Flag `--pid` / `-p`. -/
  pidFile : String
  /-- Flag `--force` / `-f`. -/
  force : Bool
  /-- Flag `--timeout` / `-t`. -/
  timeout : Int

/-! ## start.go -/

/-- The function `readPidFile` (start.go:207): `os.ReadFile`, then
`strconv.Atoi` on the whole content. -/
def readPidFile (w : World) (path : String) : Except PidFileError Int :=
  match w.files path with
  | none => Except.error PidFileError.readFailed
  | some data =>
    match Atoi data with
    | (pid, none) => Except.ok pid
    | (_, some e) => Except.error (PidFileError.parseFailed e)

/-- The function `writePidFile` (start.go:225).  The result of `os.MkdirAll`
is ignored by the source.  `os.WriteFile` opens with `O_TRUNC`: when it fails
at the open the file is untouched, when it fails later the file holds the
part of the text written so far; either way the failure line is printed. -/
def writePidFile (env : Env) (w : World) (path : String) (pid : Int) : World :=
  if env.writeOk path then w.store path (Itoa pid)
  else
    match env.writePartial path with
    | none => w.print Msg.pidWriteFailed
    | some k => (w.store path ((Itoa pid).take k)).print Msg.pidWriteFailed

/-- The call `os.FindProcess(pid)`.  On Unix it always succeeds (the source
says so at start.go:246, and the package only builds there: it uses
`syscall.SysProcAttr.Setsid`); the handle is the PID. -/
def osFindProcess (pid : Int) : Except Unit Int := Except.ok pid

/-- The function `isProcessRunning` (start.go:239): `os.FindProcess`, then
signal 0; alive iff the signal call returns no error. -/
def isProcessRunning (env : Env) (pid : Int) (w : World) : Bool × World :=
  match osFindProcess pid with
  | Except.error _ => (false, w)
  | Except.ok process =>
    let a := env.alive process w.polls.length
    (a, { w with polls := w.polls ++ [(process, a)] })

/-- The call `process.Signal(sig)` for SIGTERM / SIGKILL: `true` when the
returned error is nil. -/
def sendSignal (env : Env) (process : Int) (sig : Signal) (w : World) : Bool × World :=
  let ok := env.deliver process sig w.signals.length
  (ok, { w with signals := w.signals ++ [(process, sig, ok)] })

/-- The function `startProgram` (start.go:90): optional log file, `cmd.Start`,
PID file written, `cmd.Wait`, PID file removed.  The model covers the runs in
which the child exits, and a child that leaves the modelled files alone. -/
def startProgram (env : Env) (cfg : Config) (programPath : String)
    (programArgs : List String) (w : World) : Step :=
  let argv := programPath :: programArgs
  if cfg.logFile ≠ "" ∧ env.openOk cfg.logFile = false then
    Step.exited 1 (w.print Msg.logOpenFailed)
  else
    let w1 := if cfg.logFile ≠ "" then w.create cfg.logFile else w
    match env.procStart argv with
    | none => Step.exited 1 ((w1.spawn argv none).print Msg.startFailed)
    | some pid =>
      let w2 := w1.spawn argv (some pid)
      let w3 := if cfg.pidFile ≠ "" then writePidFile env w2 cfg.pidFile pid else w2
      let w4 := w3.print (Msg.started pid)
      let w5 := if env.waitOk then w4 else w4.print Msg.exitedAbnormally
      let w6 := if cfg.pidFile ≠ "" then w5.remove env cfg.pidFile else w5
      Step.returned w6

/-- The loop of start.go:147-152 over `cmd.Args`: the first element equal to
`-d` or `--daemon` is cut out, then the loop breaks. -/
def stripDaemonFlag : List String → List String
  | [] => []
  | arg :: rest =>
    if arg = "-d" ∨ arg = "--daemon" then rest
    else arg :: stripDaemonFlag rest

/-- The argument vector `cmd.Args` of `startAsDaemon` after start.go:144-152:
`exec.Command(os.Args[0], "start", programPath, programArgs...)`, stripped. -/
def daemonArgv (self : String) (programPath : String) (programArgs : List String) :
    List String :=
  stripDaemonFlag (self :: "start" :: programPath :: programArgs)

/-- The function `startAsDaemon` (start.go:141): re-invokes the program's own
`start` verb in a new session, writes the PID file and exits 0. -/
def startAsDaemon (env : Env) (cfg : Config) (programPath : String)
    (programArgs : List String) (w : World) : Step :=
  let argv := daemonArgv cfg.self programPath programArgs
  if cfg.logFile ≠ "" ∧ env.openOk cfg.logFile = false then
    Step.exited 1 (w.print Msg.logOpenFailed)
  else if cfg.logFile = "" ∧ env.openOk "/dev/null" = false then
    Step.exited 1 (w.print Msg.devNullFailed)
  else
    let w1 := if cfg.logFile ≠ "" then w.create cfg.logFile else w
    match env.procStart argv with
    | none => Step.exited 1 ((w1.spawn argv none).print Msg.daemonStartFailed)
    | some pid =>
      let w2 := w1.spawn argv (some pid)
      let w3 := if cfg.pidFile ≠ "" then writePidFile env w2 cfg.pidFile pid else w2
      Step.exited 0 (w3.print (Msg.daemonStarted pid))

/-- The launch step shared by `start` and `restart` (start.go:66-70,
restart.go:92-96). -/
def launch (env : Env) (cfg : Config) (programPath : String)
    (programArgs : List String) (w : World) : Step :=
  if cfg.daemonize then startAsDaemon env cfg programPath programArgs w
  else startProgram env cfg programPath programArgs w

/-- The value `args[0]`; cobra guarantees `len(args) >= 1`. -/
def argPath (args : List String) : String := args.headD ""

/-- The value of `programArgs` after `if len(args) > 1 { programArgs = args[1:] }`
in a fresh process. -/
def argRest (args : List String) : List String :=
  if args.length > 1 then args.tail else []

/-- The command `start` (start.go:48-71). -/
def startRun (env : Env) (cfg : Config) (args : List String) (w : World) : Step :=
  let programPath := argPath args
  let programArgs := argRest args
  if cfg.pidFile ≠ "" then
    match readPidFile w cfg.pidFile with
    | Except.ok pid =>
      match isProcessRunning env pid w with
      | (true, w1) => Step.returned (w1.print (Msg.alreadyRunning pid))
      | (false, w1) => launch env cfg programPath programArgs w1
    | Except.error _ => launch env cfg programPath programArgs w
  else launch env cfg programPath programArgs w

/-! ## stop.go -/

/-- How a polling loop of `stop` ends. -/
inductive PollOutcome where
  /-- A probe found the process dead: the loop body returned from `Run`. -/
  | dead (w : World)
  /-- Every probe found the process alive: the loop ran to its bound. -/
  | alive (w : World)

/-- The two polling loops of `stop` (stop.go:69-78 with `msg = stopped` over
`0 .. timeout-1`, stop.go:93-102 with `msg = forceKilled` over `0 .. 4`):
sleep one second, probe, and on a dead process print, remove the PID file and
return.  The list holds the values `i` takes. -/
def pollLoop (env : Env) (pidFile : String) (pid : Int) (msg : Msg) :
    List Nat → World → PollOutcome
  | [], w => PollOutcome.alive w
  | _ :: is, w =>
    match isProcessRunning env pid w with
    | (false, w1) => PollOutcome.dead ((w1.print msg).remove env pidFile)
    | (true, w1) => pollLoop env pidFile pid msg is w1

/-- Lines stop.go:84-106 of `stop`: SIGKILL, then at most five probes. -/
def stopForce (env : Env) (cfg : Config) (pid : Int) (process : Int) (w : World) : Step :=
  let w1 := w.print (Msg.forceKilling pid)
  match sendSignal env process Signal.SIGKILL w1 with
  | (false, w2) => Step.exited 1 (w2.print Msg.killSendFailed)
  | (true, w2) =>
    match pollLoop env cfg.pidFile pid Msg.forceKilled (List.range 5) w2 with
    | PollOutcome.dead w3 => Step.returned w3
    | PollOutcome.alive w3 => Step.returned (w3.print Msg.cannotTerminate)

/-- The command `stop` (stop.go:35-107). -/
def stopRun (env : Env) (cfg : Config) (w : World) : Step :=
  if cfg.pidFile = "" then Step.exited 1 (w.print Msg.pidPathMissing)
  else
    match readPidFile w cfg.pidFile with
    | Except.error e => Step.exited 1 (w.print (Msg.notRunning e))
    | Except.ok pid =>
      match osFindProcess pid with
      | Except.error _ => Step.exited 1 ((w.print (Msg.findFailed pid)).remove env cfg.pidFile)
      | Except.ok process =>
        if cfg.force = false then
          let w1 := w.print (Msg.stopping pid)
          match sendSignal env process Signal.SIGTERM w1 with
          | (false, w2) => Step.exited 1 (w2.print Msg.termSendFailed)
          | (true, w2) =>
            match pollLoop env cfg.pidFile pid Msg.stopped
                (List.range cfg.timeout.toNat) w2 with
            | PollOutcome.dead w3 => Step.returned w3
            | PollOutcome.alive w3 =>
              stopForce env cfg pid process (w3.print Msg.escalating)
        else stopForce env cfg pid process w

/-! ## status.go -/

/-- The command `status` (status.go:24-48). -/
def statusRun (env : Env) (cfg : Config) (w : World) : Step :=
  if cfg.pidFile = "" then Step.exited 1 (w.print Msg.pidPathMissing)
  else
    match readPidFile w cfg.pidFile with
    | Except.error e => Step.exited 1 (w.print (Msg.notRunning e))
    | Except.ok pid =>
      match isProcessRunning env pid w with
      | (true, w1) => Step.returned (w1.print (Msg.running pid))
      | (false, w1) => Step.returned ((w1.print (Msg.staleFile pid)).remove env cfg.pidFile)

/-! ## restart.go -/

/-- The loop of restart.go:59-86 over the values `i` takes.  A dead process
breaks out of the loop; on the last iteration (`i == timeout-1`) a process
still alive gets SIGKILL (the result of that send is ignored) and one more
probe, and `os.Exit(1)` when it is alive even then.  `Step.returned` means the
loop was left, towards the launch step.  The body runs only when
`0 <= i < timeout`, so neither `i++` nor `timeout-1` can wrap there. -/
def restartLoop (env : Env) (cfg : Config) (pid : Int) (process : Int) :
    List Nat → World → Step
  | [], w => Step.returned w
  | i :: is, w =>
    match isProcessRunning env pid w with
    | (false, w1) => Step.returned ((w1.print Msg.stopped).remove env cfg.pidFile)
    | (true, w1) =>
      if (i : Int) = cfg.timeout - 1 then
        let w2 := w1.print Msg.escalating
        let w3 := (sendSignal env process Signal.SIGKILL w2).2
        match isProcessRunning env pid w3 with
        | (false, w4) =>
          restartLoop env cfg pid process is ((w4.print Msg.forceKilled).remove env cfg.pidFile)
        | (true, w4) => Step.exited 1 (w4.print Msg.cannotTerminate)
      else restartLoop env cfg pid process is w1

/-- Lines restart.go:38-87 of `restart`, everything before the launch step.
`Step.returned` means control reaches restart.go:89.  The error of
`os.FindProcess` is discarded at restart.go:49; were there one, the handle
would be nil and the `Signal` call on it a run-time panic (exit status 2). -/
def restartStopPhase (env : Env) (cfg : Config) (w : World) : Step :=
  if cfg.pidFile = "" then Step.exited 1 (w.print Msg.pidPathMissing)
  else
    match readPidFile w cfg.pidFile with
    | Except.error _ => Step.returned w
    | Except.ok pid =>
      match isProcessRunning env pid w with
      | (false, w1) => Step.returned w1
      | (true, w1) =>
        let w2 := w1.print (Msg.stopping pid)
        match osFindProcess pid with
        | Except.error _ => Step.exited 2 w2
        | Except.ok process =>
          match sendSignal env process Signal.SIGTERM w2 with
          | (false, w3) => Step.exited 1 (w3.print Msg.termSendFailed)
          | (true, w3) =>
            restartLoop env cfg pid process (List.range cfg.timeout.toNat) w3

/-- The command `restart` (restart.go:30-97): the stop phase, then the launch
step. -/
def restartRun (env : Env) (cfg : Config) (args : List String) (w : World) : Step :=
  match restartStopPhase env cfg w with
  | Step.exited code w1 => Step.exited code w1
  | Step.returned w1 =>
    launch env cfg (argPath args) (argRest args) (w1.print Msg.starting)

/-! ## Concrete inputs -/

/-- A file system holding one file. -/
def fsOne (path : String) (data : List Byte) : String → Option (List Byte) :=
  fun q => if q = path then some data else none

/-- An operating system in which every probed process answers the first
`aliveFor` probes and is gone afterwards, every signal send has the result
`deliverOk`, every spawn has the result `child`, and file operations succeed
(`os.Remove` included). -/
def demoEnv (aliveFor : Nat) (deliverOk : Bool) (child : Option Int) : Env :=
  { alive := fun _ n => decide (n < aliveFor)
    deliver := fun _ _ _ => deliverOk
    openOk := fun _ => true
    procStart := fun _ => child
    waitOk := true
    writeOk := fun _ => true
    writePartial := fun _ => none
    removeOk := fun _ _ => true }

/-- The same operating system, except that every `os.Remove` fails (a PID
file in a directory the user may not write to, say). -/
def stuckEnv (aliveFor : Nat) (deliverOk : Bool) (child : Option Int) : Env :=
  { demoEnv aliveFor deliverOk child with removeOk := fun _ _ => false }

/-- The flags `--pid app.pid`, with the given `--daemon`, `--force` and
`--timeout`. -/
def demoConfig (daemonize : Bool) (force : Bool) (timeout : Int) : Config :=
  { self := "procmanager"
    daemonize := daemonize
    logFile := ""
    pidFile := "app.pid"
    force := force
    timeout := timeout }

/-- The PID file `app.pid` with content `42`. -/
def fs42 : String → Option (List Byte) := fsOne "app.pid" [52, 50]


/-! # Theorems -/

/-! ## Arithmetic of the digit loops -/

theorem toInt64_of_range (x : Int) (h1 : -9223372036854775808 ≤ x)
    (h2 : x < 9223372036854775808) : toInt64 x = x := by
  unfold toInt64
  omega

theorem decFold_cons (n : Nat) (c : Byte) (ds : List Byte) :
    decFold n (c :: ds) = decFold (n * 10 + (c.val - 48)) ds := rfl

theorem le_decFold (ds : List Byte) : ∀ n : Nat, n ≤ decFold n ds := by
  induction ds with
  | nil => intro n; exact Nat.le_refl n
  | cons c rest ih =>
    intro n
    rw [decFold_cons]
    have := ih (n * 10 + (c.val - 48))
    omega

theorem decFold_bound (ds : List Byte) (hd : ds.all isDigit = true) :
    ∀ n : Nat, decFold n ds + 1 ≤ (n + 1) * 10 ^ ds.length := by
  induction ds with
  | nil => intro n; simp [decFold]
  | cons c rest ih =>
    intro n
    rw [decFold_cons]
    simp only [List.all_cons, Bool.and_eq_true] at hd
    have hc : 48 ≤ c.val ∧ c.val ≤ 57 := by simpa [isDigit] using hd.1
    have h1 := ih hd.2 (n * 10 + (c.val - 48))
    have h2 : (n * 10 + (c.val - 48) + 1) * 10 ^ rest.length
        ≤ ((n + 1) * 10) * 10 ^ rest.length :=
      Nat.mul_le_mul_right _ (by omega)
    calc decFold (n * 10 + (c.val - 48)) rest + 1
        ≤ (n * 10 + (c.val - 48) + 1) * 10 ^ rest.length := h1
      _ ≤ ((n + 1) * 10) * 10 ^ rest.length := h2
      _ = (n + 1) * 10 ^ (c :: rest).length := by
          rw [List.length_cons, pow_succ]; ring

theorem isDigit_iff (c : Byte) : isDigit c = true ↔ 48 ≤ c.val ∧ c.val ≤ 57 := by
  simp [isDigit]

theorem atoiFastLoop_digits (ds : List Byte) (hd : ds.all isDigit = true) :
    ∀ n : Nat, (n + 1) * 10 ^ ds.length ≤ 10 ^ 18 →
      atoiFastLoop ds (n : Int) = some ((decFold n ds : Nat) : Int) := by
  induction ds with
  | nil => intro n _; rfl
  | cons c rest ih =>
    intro n hn
    simp only [List.all_cons, Bool.and_eq_true] at hd
    have hc := (isDigit_iff c).1 hd.1
    have hlt := c.isLt
    have hpos : 0 < 10 ^ rest.length := by positivity
    have hstep : (n * 10 + (c.val - 48) + 1) * 10 ^ rest.length ≤ 10 ^ 18 := by
      have h2 : (n * 10 + (c.val - 48) + 1) * 10 ^ rest.length
          ≤ ((n + 1) * 10) * 10 ^ rest.length :=
        Nat.mul_le_mul_right _ (by omega)
      have h3 : ((n + 1) * 10) * 10 ^ rest.length = (n + 1) * 10 ^ (c :: rest).length := by
        rw [List.length_cons, pow_succ]; ring
      omega
    have hsmall : n * 10 + (c.val - 48) + 1 ≤ 10 ^ 18 :=
      le_trans (Nat.le_mul_of_pos_right _ hpos) hstep
    have hd256 : (c.val + 256 - 48) % 256 = c.val - 48 := by omega
    rw [atoiFastLoop, decFold_cons]
    simp only [hd256]
    have h9 : ¬ (c.val - 48 > 9) := by omega
    rw [if_neg h9]
    have hcast : toInt64 ((n : Int) * 10 + ((c.val - 48 : Nat) : Int))
        = ((n * 10 + (c.val - 48) : Nat) : Int) := by
      rw [toInt64_of_range] <;> norm_num at hsmall ⊢ <;> omega
    rw [hcast]
    exact ih hd.2 _ hstep

theorem atoiFastLoop_nondigit (ds : List Byte) (hd : ds.all isDigit = false) :
    ∀ n : Int, atoiFastLoop ds n = none := by
  induction ds with
  | nil => simp at hd
  | cons c rest ih =>
    intro n
    have hlt := c.isLt
    rw [atoiFastLoop]
    by_cases hc : isDigit c = true
    · have hr : rest.all isDigit = false := by
        simpa [List.all_cons, hc] using hd
      have hc2 := (isDigit_iff c).1 hc
      have h9 : ¬ ((c.val + 256 - 48) % 256 > 9) := by omega
      simp only [h9, if_false]
      exact ih hr _
    · have hc2 : ¬ (48 ≤ c.val ∧ c.val ≤ 57) := fun h => hc ((isDigit_iff c).2 h)
      have h9 : (c.val + 256 - 48) % 256 > 9 := by omega
      simp only [h9, if_true]

theorem parseUintLoop_digits (ds : List Byte) (hd : ds.all isDigit = true) :
    ∀ n : Nat, n < 18446744073709551616 →
      parseUintLoop ds n =
        if decFold n ds < 18446744073709551616 then (decFold n ds, none)
        else (maxUint64, some NumError.errRange) := by
  induction ds with
  | nil => intro n hn; simp [parseUintLoop, decFold, hn]
  | cons c rest ih =>
    intro n hn
    simp only [List.all_cons, Bool.and_eq_true] at hd
    have hc := (isDigit_iff c).1 hd.1
    have hmono := le_decFold rest (n * 10 + (c.val - 48))
    rw [parseUintLoop, decFold_cons, if_pos hc]
    by_cases hcut : n ≥ maxUint64 / 10 + 1
    · rw [if_pos hcut]
      have : ¬ decFold (n * 10 + (c.val - 48)) rest < 18446744073709551616 := by
        simp only [maxUint64] at hcut; omega
      rw [if_neg this]
    · rw [if_neg hcut]
      simp only [maxUint64] at hcut ⊢
      by_cases hov : n * 10 + (c.val - 48) < 18446744073709551616
      · have e1 : (n * 10 % 18446744073709551616 + (c.val - 48)) % 18446744073709551616
            = n * 10 + (c.val - 48) := by omega
        have e2 : n * 10 % 18446744073709551616 = n * 10 := by omega
        have e3 : (n * 10 + (c.val - 48)) % 18446744073709551616
            = n * 10 + (c.val - 48) := by omega
        simp only [e2, e3]
        have hno : ¬ (n * 10 + (c.val - 48) < n * 10 ∨
            n * 10 + (c.val - 48) > 18446744073709551615) := by omega
        rw [if_neg hno]
        exact ih hd.2 _ hov
      · have hyes : (n * 10 % 18446744073709551616 + (c.val - 48)) % 18446744073709551616
              < n * 10 % 18446744073709551616 ∨
            (n * 10 % 18446744073709551616 + (c.val - 48)) % 18446744073709551616
              > 18446744073709551615 := by omega
        simp only [hyes, if_true]
        have : ¬ decFold (n * 10 + (c.val - 48)) rest < 18446744073709551616 := by omega
        rw [if_neg this]

theorem parseUintLoop_nondigit (ds : List Byte) (hd : ds.all isDigit = false) :
    ∀ n : Nat, parseUintLoop ds n = (0, some NumError.errSyntax) ∨
      parseUintLoop ds n = (maxUint64, some NumError.errRange) := by
  induction ds with
  | nil => simp at hd
  | cons c rest ih =>
    intro n
    rw [parseUintLoop]
    by_cases hc : isDigit c = true
    · have hr : rest.all isDigit = false := by
        simpa [List.all_cons, hc] using hd
      rw [if_pos ((isDigit_iff c).1 hc)]
      by_cases hcut : n ≥ maxUint64 / 10 + 1
      · rw [if_pos hcut]; exact Or.inr rfl
      · rw [if_neg hcut]
        simp only []
        split
        · exact Or.inr rfl
        · exact ih hr _
    · have hc2 : ¬ (48 ≤ c.val ∧ c.val ≤ 57) := fun h => hc ((isDigit_iff c).2 h)
      rw [if_neg hc2]; exact Or.inl rfl

theorem all_isDigit_cases (ds : List Byte) :
    ds.all isDigit = true ∨ ds.all isDigit = false := by
  cases ds.all isDigit <;> simp

theorem fast_digits (ds : List Byte) (hlen : ds.length ≤ 18)
    (hd : ds.all isDigit = true) :
    atoiFastLoop ds 0 = some ((decValue ds : Nat) : Int) ∧
      decValue ds < 1000000000000000000 := by
  have hb := decFold_bound ds hd 0
  have hp : 10 ^ ds.length ≤ 10 ^ 18 := Nat.pow_le_pow_right (by decide) hlen
  constructor
  · have := atoiFastLoop_digits ds hd 0 (by omega)
    simpa [decValue] using this
  · unfold decValue
    norm_num at hp
    omega

/-- Outcome of the fast path of `Atoi` on a sign flag and a digit body. -/
theorem fast_spec (ds : List Byte) (hlen : ds.length ≤ 18) :
    (ds ≠ [] ∧ ds.all isDigit = true ∧
        atoiFastLoop ds 0 = some ((decValue ds : Nat) : Int) ∧
        decValue ds < 1000000000000000000) ∨
    ((ds = [] ∨ ds.all isDigit = false) ∧ (ds ≠ [] → atoiFastLoop ds 0 = none)) := by
  by_cases hne : ds = []
  · right; exact ⟨Or.inl hne, fun h => absurd hne h⟩
  · rcases all_isDigit_cases ds with hd | hd
    · left; exact ⟨hne, hd, fast_digits ds hlen hd⟩
    · right; exact ⟨Or.inr hd, fun _ => atoiFastLoop_nondigit ds hd 0⟩

theorem ParseUint_spec (ds : List Byte) :
    (ds ≠ [] ∧ ds.all isDigit = true ∧ decValue ds < 18446744073709551616 ∧
        ParseUint ds = (decValue ds, none)) ∨
    (ds ≠ [] ∧ ds.all isDigit = true ∧ ¬ decValue ds < 18446744073709551616 ∧
        ParseUint ds = (maxUint64, some NumError.errRange)) ∨
    ((ds = [] ∨ ds.all isDigit = false) ∧
        (ParseUint ds = (0, some NumError.errSyntax) ∨
         ParseUint ds = (maxUint64, some NumError.errRange))) := by
  by_cases hne : ds = []
  · right; right; subst hne; exact ⟨Or.inl rfl, Or.inl rfl⟩
  · rcases all_isDigit_cases ds with hd | hd
    · have h := parseUintLoop_digits ds hd 0 (by decide)
      by_cases hv : decValue ds < 18446744073709551616
      · left
        refine ⟨hne, hd, hv, ?_⟩
        unfold decValue at hv
        rw [ParseUint, if_neg hne, h, if_pos hv]; rfl
      · right; left
        refine ⟨hne, hd, hv, ?_⟩
        unfold decValue at hv
        rw [ParseUint, if_neg hne, h, if_neg hv]
    · right; right
      refine ⟨Or.inr hd, ?_⟩
      rw [ParseUint, if_neg hne]
      exact parseUintLoop_nondigit ds hd 0

/-! ## `strconv.Atoi` against the reference parser -/

theorem parseSigned_range (s : List Byte) (v : Int) (h : parseSigned s = some v) :
    -9223372036854775808 ≤ v ∧ v < 9223372036854775808 := by
  cases s with
  | nil => simp [parseSigned] at h
  | cons c rest =>
    simp only [parseSigned] at h
    split_ifs at h with h1 h2
    all_goals
      simp only [Option.some.injEq] at h
      rw [← h]; assumption

theorem ParseInt_spec (c : Byte) (rest : List Byte) :
    (∃ v, parseSigned (c :: rest) = some v ∧ ParseInt (c :: rest) = (v, none)) ∨
    (parseSigned (c :: rest) = none ∧ ∃ x e, ParseInt (c :: rest) = (x, some e)) := by
  by_cases hneg : c.val = 45
  · -- negative sign
    have hs1 : (c.val = 45 ∨ c.val = 43) := Or.inl hneg
    have hs2 : (c.val = 43 ∨ c.val = 45) := Or.inr hneg
    simp only [parseSigned, ParseInt, hs1, hs2, if_true]
    rcases ParseUint_spec rest with ⟨hne, hd, hv, hp⟩ | ⟨hne, hd, hv, hp⟩ | ⟨hbad, hp | hp⟩
    · rw [hp]
      by_cases hr : decValue rest > 9223372036854775808
      · right
        simp [hneg, hne, hd, hr]
      · left
        simp [hneg, hne, hd, hr, toInt64]
        omega
    · right
      rw [hp]
      simp [hneg, hne, hd, maxUint64]
      omega
    · right
      rw [hp]
      rcases hbad with h | h <;> simp [h]
    · right
      rw [hp]
      rcases hbad with h | h <;> simp [hneg, h, maxUint64]
  · by_cases hpos : c.val = 43
    · have hs1 : (c.val = 45 ∨ c.val = 43) := Or.inr hpos
      have hs2 : (c.val = 43 ∨ c.val = 45) := Or.inl hpos
      simp only [parseSigned, ParseInt, hs1, hs2, if_true]
      rcases ParseUint_spec rest with ⟨hne, hd, hv, hp⟩ | ⟨hne, hd, hv, hp⟩ | ⟨hbad, hp | hp⟩
      · rw [hp]
        by_cases hr : decValue rest ≥ 9223372036854775808
        · right
          simp [hneg, hne, hd, hr]
        · left
          simp [hneg, hne, hd, hr, toInt64]
          omega
      · right
        rw [hp]
        simp [hneg, hne, hd, maxUint64]
        omega
      · right
        rw [hp]
        rcases hbad with h | h <;> simp [h]
      · right
        rw [hp]
        rcases hbad with h | h <;> simp [hneg, h, maxUint64]
    · have hs1 : ¬ (c.val = 45 ∨ c.val = 43) := by omega
      have hs2 : ¬ (c.val = 43 ∨ c.val = 45) := by omega
      simp only [parseSigned, ParseInt, hs1, hs2, if_false]
      rcases ParseUint_spec (c :: rest) with ⟨hne, hd, hv, hp⟩ | ⟨hne, hd, hv, hp⟩ | ⟨hbad, hp | hp⟩
      · rw [hp]
        by_cases hr : decValue (c :: rest) ≥ 9223372036854775808
        · right
          simp [hneg, hne, hd, hr]
        · left
          simp [hneg, hne, hd, hr, toInt64]
          omega
      · right
        rw [hp]
        simp [hneg, hne, hd, maxUint64]
        omega
      · right
        rw [hp]
        rcases hbad with h | h <;> simp [h]
      · right
        rw [hp]
        rcases hbad with h | h <;> simp [hneg, h, maxUint64]

theorem Atoi_spec (s : List Byte) :
    (∃ v, parseSigned s = some v ∧ Atoi s = (v, none)) ∨
    (parseSigned s = none ∧ ∃ x e, Atoi s = (x, some e)) := by
  cases s with
  | nil => right; exact ⟨rfl, _, _, rfl⟩
  | cons c rest =>
    by_cases hlen : (c :: rest).length < 19
    · -- fast path
      have hl1 : rest.length ≤ 18 := by simp at hlen; omega
      have hl2 : (c :: rest).length ≤ 18 := by omega
      by_cases hs : c.val = 45 ∨ c.val = 43
      · simp only [parseSigned, Atoi, hlen, hs, if_true, decide_True]
        rcases fast_spec rest hl1 with ⟨hne, hd, hf, hv⟩ | ⟨hbad, hf⟩
        · left
          have hlen1 : ¬ rest.length < 1 := by
            cases rest with
            | nil => exact absurd rfl hne
            | cons a t => simp
          rw [hf]
          by_cases hneg : c.val = 45
          · simp [hneg, hne, hd, hlen1, toInt64]
            omega
          · simp [hneg, hne, hd, hlen1]
            omega
        · right
          by_cases hne : rest = []
          · simp [hne]
          · have hd : rest.all isDigit = false := by
              rcases hbad with h | h
              · exact absurd h hne
              · exact h
            have hlen1 : ¬ rest.length < 1 := by
              cases rest with
              | nil => exact absurd rfl hne
              | cons a t => simp
            rw [hf hne]
            simp [hne, hd, hlen1]
      · have hneg : ¬ c.val = 45 := fun h => hs (Or.inl h)
        simp only [parseSigned, Atoi, hlen, hs, if_true, if_false, decide_False,
          Bool.false_eq_true, false_and]
        rcases fast_spec (c :: rest) hl2 with ⟨hne, hd, hf, hv⟩ | ⟨hbad, hf⟩
        · left
          rw [hf]
          simp [hneg, hne, hd]
          omega
        · right
          have hd : (c :: rest).all isDigit = false := by
            rcases hbad with h | h
            · exact absurd h (List.cons_ne_nil _ _)
            · exact h
          rw [hf (List.cons_ne_nil _ _)]
          simp [hneg, hd]
    · -- slow path
      simp only [Atoi, hlen, if_false]
      rcases ParseInt_spec c rest with ⟨v, hp, hi⟩ | ⟨hp, x, e, hi⟩
      · left
        refine ⟨v, hp, ?_⟩
        rw [hi]
        have hr := parseSigned_range _ _ hp
        simp only [toInt64_of_range v hr.1 hr.2]
      · right
        refine ⟨hp, toInt64 x, e, ?_⟩
        rw [hi]

/-! ## `strconv.Itoa` and the round trip -/

theorem digitByte_val (d : Nat) : (digitByte d).val = 48 + d % 10 := rfl

theorem isDigit_digitByte (d : Nat) : isDigit (digitByte d) = true := by
  rw [isDigit_iff, digitByte_val]; omega

theorem formatDigits_spec (fuel : Nat) :
    ∀ (n : Nat) (acc : List Byte), n < fuel →
      decFold 0 (formatDigits fuel n acc) = decFold n acc ∧
      (acc.all isDigit = true → (formatDigits fuel n acc).all isDigit = true) ∧
      formatDigits fuel n acc ≠ [] := by
  induction fuel with
  | zero => intro n acc h; omega
  | succ fuel ih =>
    intro n acc h
    rw [formatDigits]
    by_cases h10 : n < 10
    · rw [if_pos h10]
      refine ⟨?_, ?_, List.cons_ne_nil _ _⟩
      · rw [decFold_cons, digitByte_val]
        congr 1; omega
      · intro ha
        simp [List.all_cons, isDigit_digitByte, ha]
    · rw [if_neg h10]
      have hlt : n / 10 < fuel := by omega
      obtain ⟨h1, h2, h3⟩ := ih (n / 10) (digitByte (n % 10) :: acc) hlt
      refine ⟨?_, ?_, h3⟩
      · rw [h1, decFold_cons, digitByte_val]
        congr 1; omega
      · intro ha
        apply h2
        simp [List.all_cons, isDigit_digitByte, ha]

theorem formatNat_spec (n : Nat) :
    decValue (formatNat n) = n ∧ (formatNat n).all isDigit = true ∧ formatNat n ≠ [] := by
  obtain ⟨h1, h2, h3⟩ := formatDigits_spec (n + 1) n [] (by omega)
  refine ⟨?_, h2 (by simp), h3⟩
  simpa [decValue, formatNat, decFold] using h1

theorem parseSigned_digits (ds : List Byte) (hne : ds ≠ [])
    (hd : ds.all isDigit = true) (hr : decValue ds < 9223372036854775808) :
    parseSigned ds = some ((decValue ds : Nat) : Int) := by
  cases ds with
  | nil => exact absurd rfl hne
  | cons c rest =>
    have hc : 48 ≤ c.val ∧ c.val ≤ 57 := by
      simp only [List.all_cons, Bool.and_eq_true] at hd
      exact (isDigit_iff c).1 hd.1
    have hs : ¬ (c.val = 45 ∨ c.val = 43) := by omega
    have hneg : ¬ c.val = 45 := by omega
    simp only [parseSigned, hs, if_false]
    simp [hneg, hd]
    omega

theorem parseSigned_minus (ds : List Byte) (hne : ds ≠ [])
    (hd : ds.all isDigit = true) (hr : decValue ds ≤ 9223372036854775808) :
    parseSigned ((45 : Byte) :: ds) = some (-((decValue ds : Nat) : Int)) := by
  have h45 : ((45 : Byte).val = 45) := rfl
  have hs : ((45 : Byte).val = 45 ∨ (45 : Byte).val = 43) := Or.inl h45
  simp only [parseSigned, hs, if_true]
  have hall : ∀ x ∈ ds, isDigit x = true := by simpa using hd
  simp [h45, hne]
  exact ⟨hall, hr, by omega⟩

theorem parseSigned_Itoa (pid : Int) (h1 : -9223372036854775808 ≤ pid)
    (h2 : pid < 9223372036854775808) : parseSigned (Itoa pid) = some pid := by
  unfold Itoa
  by_cases hneg : pid < 0
  · rw [if_pos hneg]
    obtain ⟨hv, hd, hne⟩ := formatNat_spec (-pid).toNat
    rw [parseSigned_minus _ hne hd (by rw [hv]; omega), hv]
    congr 1; omega
  · rw [if_neg hneg]
    obtain ⟨hv, hd, hne⟩ := formatNat_spec pid.toNat
    rw [parseSigned_digits _ hne hd (by rw [hv]; omega), hv]
    congr 1; omega

theorem Atoi_Itoa (pid : Int) (h1 : -9223372036854775808 ≤ pid)
    (h2 : pid < 9223372036854775808) : Atoi (Itoa pid) = (pid, none) := by
  rcases Atoi_spec (Itoa pid) with ⟨v, hp, ha⟩ | ⟨hp, _⟩
  · rw [parseSigned_Itoa pid h1 h2] at hp
    rw [ha]; simp only [Option.some.injEq] at hp; rw [hp]
  · rw [parseSigned_Itoa pid h1 h2] at hp
    exact absurd hp (by simp)

/-! ## The polling loops of `stop` -/

theorem pollLoop_spec (env : Env) (pf : String) (pid : Int) (msg : Msg) :
    ∀ (is : List Nat) (w : World),
      (∃ m, m < is.length ∧
        (∀ j, j < m → env.alive pid (w.polls.length + j) = true) ∧
        env.alive pid (w.polls.length + m) = false ∧
        pollLoop env pf pid msg is w = PollOutcome.dead
          { files := if env.removeOk pf w.removes.length = true
              then (fun q => if q = pf then none else w.files q) else w.files
            out := w.out ++ [msg]
            polls := w.polls ++ (List.replicate m (pid, true) ++ [(pid, false)])
            signals := w.signals
            spawns := w.spawns
            removes := w.removes ++ [(pf, env.removeOk pf w.removes.length)] }) ∨
      ((∀ j, j < is.length → env.alive pid (w.polls.length + j) = true) ∧
        pollLoop env pf pid msg is w = PollOutcome.alive
          { files := w.files
            out := w.out
            polls := w.polls ++ List.replicate is.length (pid, true)
            signals := w.signals
            spawns := w.spawns
            removes := w.removes }) := by
  intro is
  induction is with
  | nil =>
    intro w
    right
    refine ⟨fun j hj => absurd hj (by simp), ?_⟩
    simp [pollLoop]
  | cons i rest ih =>
    intro w
    cases ha : env.alive pid w.polls.length with
    | false =>
      left
      refine ⟨0, by simp, fun j hj => absurd hj (by omega), by simpa using ha, ?_⟩
      simp [pollLoop, isProcessRunning, osFindProcess, ha, World.print, World.remove]
    | true =>
      have hstep : pollLoop env pf pid msg (i :: rest) w =
          pollLoop env pf pid msg rest
            { w with polls := w.polls ++ [(pid, true)] } := by
        simp [pollLoop, isProcessRunning, osFindProcess, ha]
      rcases ih { w with polls := w.polls ++ [(pid, true)] } with
        ⟨m, hm, hal, hde, heq⟩ | ⟨hal, heq⟩
      · left
        simp only [List.length_append, List.length_singleton] at hal hde
        refine ⟨m + 1, by simp; omega, ?_, ?_, ?_⟩
        · intro j hj
          cases j with
          | zero => simpa using ha
          | succ j =>
            have := hal j (by omega)
            rw [← this]; congr 1; omega
        · rw [← hde]; congr 1; omega
        · rw [hstep, heq]
          simp [List.replicate_succ]
      · right
        simp only [List.length_append, List.length_singleton] at hal
        refine ⟨?_, ?_⟩
        · intro j hj
          cases j with
          | zero => simpa using ha
          | succ j =>
            have := hal j (by simp at hj; omega)
            rw [← this]; congr 1; omega
        · rw [hstep, heq]
          simp [List.replicate_succ]

/-- The loop returns at the first probe that finds the process dead, when
that probe is within the loop's bound. -/
theorem pollLoop_first_dead (env : Env) (pf : String) (pid : Int) (msg : Msg)
    (is : List Nat) (w : World) (k : Nat) (hk : 1 ≤ k) (hlen : k ≤ is.length)
    (halive : ∀ j, j + 1 < k → env.alive pid (w.polls.length + j) = true)
    (hdead : env.alive pid (w.polls.length + (k - 1)) = false) :
    pollLoop env pf pid msg is w = PollOutcome.dead
      { files := if env.removeOk pf w.removes.length = true
          then (fun q => if q = pf then none else w.files q) else w.files
        out := w.out ++ [msg]
        polls := w.polls ++ (List.replicate (k - 1) (pid, true) ++ [(pid, false)])
        signals := w.signals
        spawns := w.spawns
        removes := w.removes ++ [(pf, env.removeOk pf w.removes.length)] } := by
  rcases pollLoop_spec env pf pid msg is w with ⟨m, _, hal, hde, heq⟩ | ⟨hal, _⟩
  · have hm : m = k - 1 := by
      rcases Nat.lt_trichotomy m (k - 1) with h | h | h
      · have := halive m (by omega); rw [this] at hde; exact absurd hde (by simp)
      · exact h
      · have := hal (k - 1) h; rw [this] at hdead; exact absurd hdead (by simp)
    subst hm
    exact heq
  · have := hal (k - 1) (by omega)
    rw [this] at hdead
    exact absurd hdead (by simp)

/-- The loop runs to its bound when every probe finds the process alive. -/
theorem pollLoop_all_alive (env : Env) (pf : String) (pid : Int) (msg : Msg)
    (is : List Nat) (w : World)
    (halive : ∀ j, j < is.length → env.alive pid (w.polls.length + j) = true) :
    pollLoop env pf pid msg is w = PollOutcome.alive
      { files := w.files
        out := w.out
        polls := w.polls ++ List.replicate is.length (pid, true)
        signals := w.signals
        spawns := w.spawns
        removes := w.removes } := by
  rcases pollLoop_spec env pf pid msg is w with ⟨m, hm, _, hde, _⟩ | ⟨_, heq⟩
  · have := halive m hm
    rw [this] at hde
    exact absurd hde (by simp)
  · exact heq

/-! ## The PID store -/

theorem readPid_ok_spec (w : World) (path : String) (v : Int) :
    readPidFile w path = Except.ok v ↔
      ∃ s, w.files path = some s ∧ parseSigned s = some v := by
  unfold readPidFile
  cases hf : w.files path with
  | none => simp
  | some s =>
    simp only [Option.some.injEq, exists_eq_left']
    rcases Atoi_spec s with ⟨u, hp, ha⟩ | ⟨hp, x, e, ha⟩
    · rw [ha, hp]
      simp
    · rw [ha, hp]
      simp

/-- C5: when `writePidFile(path, pid)` succeeds in writing, the file content
is exactly the decimal text of `pid`, parsing that text gives `pid` back, and
`readPidFile(path)` on the resulting files returns `pid` with no error
(`pid` ranges over Go's 64-bit `int`). -/
theorem pid_file_round_trip (env : Env) (w : World) (path : String) (pid : Int)
    (hlo : -9223372036854775808 ≤ pid) (hhi : pid < 9223372036854775808)
    (hw : env.writeOk path = true) :
    (writePidFile env w path pid).files path = some (Itoa pid) ∧
    Atoi (Itoa pid) = (pid, none) ∧
    readPidFile (writePidFile env w path pid) path = Except.ok pid := by
  have hfile : (writePidFile env w path pid).files path = some (Itoa pid) := by
    simp [writePidFile, hw, World.store]
  refine ⟨hfile, Atoi_Itoa pid hlo hhi, ?_⟩
  rw [readPid_ok_spec]
  exact ⟨_, hfile, parseSigned_Itoa pid hlo hhi⟩

/-- C5 for the PID 4711 written to `app.pid` over the old content `42`. -/
theorem pid_file_round_trip_witness :
    (writePidFile (demoEnv 0 true none) (World.init fs42) "app.pid" 4711).files "app.pid"
      = some (Itoa 4711) ∧
    Atoi (Itoa 4711) = (4711, none) ∧
    readPidFile (writePidFile (demoEnv 0 true none) (World.init fs42) "app.pid" 4711) "app.pid"
      = Except.ok 4711 :=
  pid_file_round_trip (demoEnv 0 true none) (World.init fs42) "app.pid" 4711
    (by decide) (by decide) rfl

/-- C8, the claim as stated fails: the PID-file content `-5` is read as the
PID -5 without error. -/
theorem readPidFile_accepts_negative :
    readPidFile (World.init (fsOne "app.pid" [45, 53])) "app.pid" = Except.ok (-5) := by
  rfl

/-- C8 amended: `readPidFile` returns a PID without error exactly when the
file can be read and its content is an optional single sign (`+` or `-`)
followed by one or more decimal digits and nothing else, whose signed value
fits the 64-bit `int`; the PID returned is that signed value. -/
theorem readPidFile_ok_iff (w : World) (path : String) (v : Int) :
    readPidFile w path = Except.ok v ↔
      ∃ s, w.files path = some s ∧ parseSigned s = some v :=
  readPid_ok_spec w path v

/-- C9, evaluated at `start -d prog -- -d -d`: the argument vector built for
the re-invocation still holds a `-d`. -/
theorem daemonArgv_keeps_second_flag :
    daemonArgv "procmanager" "prog" ["-d", "-d"] = ["procmanager", "start", "prog", "-d"] ∧
    "-d" ∈ daemonArgv "procmanager" "prog" ["-d", "-d"] := by
  decide

/-- C10, evaluated at `restart --timeout 0` over a live PID 42 that accepts
SIGTERM and stays alive: the only probe reported the process alive, SIGTERM
was sent, and a new instance was spawned all the same. -/
theorem restart_zero_timeout_spawns_over_live :
    (restartRun (demoEnv 20 true (some 4711)) (demoConfig false false 0) ["prog"]
      (World.init fs42)).world.polls = [(42, true)] ∧
    (restartRun (demoEnv 20 true (some 4711)) (demoConfig false false 0) ["prog"]
      (World.init fs42)).world.signals = [(42, Signal.SIGTERM, true)] ∧
    (restartRun (demoEnv 20 true (some 4711)) (demoConfig false false 0) ["prog"]
      (World.init fs42)).world.spawns = [(["prog"], some 4711)] := by
  decide

/-! ## `stop` -/

/-- C1, the claim as stated fails: `stop --timeout 10` on `app.pid` holding
42, with SIGTERM delivered and the third poll the first to find the process
dead, in a system where `os.Remove` fails, makes three polls and returns with
exit code 0, but the PID file is still there. -/
theorem stop_graceful_remove_may_fail :
    readPidFile (World.init fs42) "app.pid" = Except.ok 42 ∧
    (stuckEnv 2 true none).deliver 42 Signal.SIGTERM 0 = true ∧
    (stuckEnv 2 true none).alive 42 0 = true ∧
    (stuckEnv 2 true none).alive 42 1 = true ∧
    (stuckEnv 2 true none).alive 42 2 = false ∧
    (stopRun (stuckEnv 2 true none) (demoConfig false false 10)
      (World.init fs42)).world.polls.length = 3 ∧
    (stopRun (stuckEnv 2 true none) (demoConfig false false 10)
      (World.init fs42)).exitCode = 0 ∧
    (stopRun (stuckEnv 2 true none) (demoConfig false false 10)
      (World.init fs42)).world.removes = [("app.pid", false)] ∧
    (stopRun (stuckEnv 2 true none) (demoConfig false false 10)
      (World.init fs42)).world.files "app.pid" = some [52, 50] := by
  refine ⟨rfl, rfl, rfl, rfl, rfl, by decide, by decide, by decide, by decide⟩

/-- C1 amended: `stop` without `--force`, on a PID file that parses to `p`,
when SIGTERM is delivered and the `k`-th liveness poll (`1 <= k <= timeout`)
is the first to find `p` not alive: the run makes exactly `k` polls, prints
the stopped line, calls `os.Remove` on the PID file once, returns normally
(exit code 0), and the signals sent are exactly `[SIGTERM]`, so SIGKILL is
never sent.  The PID file is gone when that `os.Remove` succeeds; when it
fails its error is discarded and the files are left as they were. -/
theorem stop_graceful_within_timeout (env : Env) (cfg : Config)
    (fs : String → Option (List Byte)) (p : Int) (k : Nat)
    (hpath : cfg.pidFile ≠ "") (hforce : cfg.force = false)
    (hread : readPidFile (World.init fs) cfg.pidFile = Except.ok p)
    (hterm : env.deliver p Signal.SIGTERM 0 = true)
    (hk : 1 ≤ k) (hkt : (k : Int) ≤ cfg.timeout)
    (halive : ∀ j, j + 1 < k → env.alive p j = true)
    (hdead : env.alive p (k - 1) = false) :
    ∃ w, stopRun env cfg (World.init fs) = Step.returned w ∧
      (stopRun env cfg (World.init fs)).exitCode = 0 ∧
      w.polls = List.replicate (k - 1) (p, true) ++ [(p, false)] ∧
      w.polls.length = k ∧
      w.out = [Msg.stopping p, Msg.stopped] ∧
      w.removes = [(cfg.pidFile, env.removeOk cfg.pidFile 0)] ∧
      (env.removeOk cfg.pidFile 0 = true → w.files cfg.pidFile = none) ∧
      (env.removeOk cfg.pidFile 0 = false → w.files = fs) ∧
      w.signals = [(p, Signal.SIGTERM, true)] ∧
      w.spawns = [] := by
  have hlen : k ≤ (List.range cfg.timeout.toNat).length := by
    rw [List.length_range]; omega
  have hrun : stopRun env cfg (World.init fs) =
      match pollLoop env cfg.pidFile p Msg.stopped (List.range cfg.timeout.toNat)
          { files := fs, out := [Msg.stopping p], polls := [],
            signals := [(p, Signal.SIGTERM, true)], spawns := [], removes := [] } with
      | PollOutcome.dead w3 => Step.returned w3
      | PollOutcome.alive w3 => stopForce env cfg p p (w3.print Msg.escalating) := by
    simp only [stopRun, hpath, if_false, hread, osFindProcess, hforce, if_true, sendSignal]
    simp [World.init, World.print, hterm]
  have hloop := pollLoop_first_dead env cfg.pidFile p Msg.stopped
    (List.range cfg.timeout.toNat)
    { files := fs, out := [Msg.stopping p], polls := [],
      signals := [(p, Signal.SIGTERM, true)], spawns := [], removes := [] }
    k hk hlen (by simpa using halive) (by simpa using hdead)
  rw [hrun, hloop]
  refine ⟨_, rfl, rfl, ?_, ?_, ?_, ?_, ?_, ?_, rfl, rfl⟩
  · simp
  · simp; omega
  · simp
  · simp
  · intro h; simp [h]
  · intro h; simp [h]

/-- C1 amended, at `timeout = 10` with a process that dies before the third
poll and a removal that succeeds. -/
theorem stop_graceful_within_timeout_witness :
    ∃ w, stopRun (demoEnv 2 true none) (demoConfig false false 10) (World.init fs42)
        = Step.returned w ∧
      (stopRun (demoEnv 2 true none) (demoConfig false false 10) (World.init fs42)).exitCode = 0 ∧
      w.polls = List.replicate (3 - 1) (42, true) ++ [(42, false)] ∧
      w.polls.length = 3 ∧
      w.out = [Msg.stopping 42, Msg.stopped] ∧
      w.removes = [((demoConfig false false 10).pidFile,
        (demoEnv 2 true none).removeOk (demoConfig false false 10).pidFile 0)] ∧
      ((demoEnv 2 true none).removeOk (demoConfig false false 10).pidFile 0 = true →
        w.files (demoConfig false false 10).pidFile = none) ∧
      ((demoEnv 2 true none).removeOk (demoConfig false false 10).pidFile 0 = false →
        w.files = fs42) ∧
      w.signals = [(42, Signal.SIGTERM, true)] ∧
      w.spawns = [] :=
  stop_graceful_within_timeout (demoEnv 2 true none) (demoConfig false false 10) fs42 42 3
    (by decide) rfl rfl rfl (by decide) (by decide)
    (fun j hj => by simp [demoEnv]; omega) (by decide)

/-- C2, the claim as stated fails: `stop --force` on `app.pid` holding 42,
with SIGKILL delivered and the second poll finding the process dead, in a
system where `os.Remove` fails, returns with exit code 0 but the PID file is
still there. -/
theorem stop_force_remove_may_fail :
    readPidFile (World.init fs42) "app.pid" = Except.ok 42 ∧
    (stopRun (stuckEnv 1 true none) (demoConfig false true 10)
      (World.init fs42)).world.signals = [(42, Signal.SIGKILL, true)] ∧
    (stopRun (stuckEnv 1 true none) (demoConfig false true 10)
      (World.init fs42)).world.polls = [(42, true), (42, false)] ∧
    (stopRun (stuckEnv 1 true none) (demoConfig false true 10)
      (World.init fs42)).exitCode = 0 ∧
    (stopRun (stuckEnv 1 true none) (demoConfig false true 10)
      (World.init fs42)).world.removes = [("app.pid", false)] ∧
    (stopRun (stuckEnv 1 true none) (demoConfig false true 10)
      (World.init fs42)).world.files "app.pid" = some [52, 50] := by
  refine ⟨rfl, by decide, by decide, by decide, by decide, by decide⟩

/-- C2 amended: `stop --force`, on a PID file that parses to `p`, for every
`--timeout`: SIGTERM is never sent and the only signal sent is one SIGKILL.
When that SIGKILL cannot be delivered the run exits with code 1 without
polling.  When it is delivered the liveness of `p` is polled at most five
times: if the `k`-th poll (`1 <= k <= 5`) is the first to find `p` not alive,
the run makes exactly `k` polls, calls `os.Remove` on the PID file once and
returns normally (exit code 0); if all five polls find `p` alive, nothing is
removed and the run returns after the fifth.  The PID file is gone when the
`os.Remove` succeeds; when it fails its error is discarded and the files are
left as they were. -/
theorem stop_force_kill_only (env : Env) (cfg : Config)
    (fs : String → Option (List Byte)) (p : Int)
    (hpath : cfg.pidFile ≠ "") (hforce : cfg.force = true)
    (hread : readPidFile (World.init fs) cfg.pidFile = Except.ok p) :
    (∀ s ∈ (stopRun env cfg (World.init fs)).world.signals, s.2.1 ≠ Signal.SIGTERM) ∧
    (stopRun env cfg (World.init fs)).world.signals
      = [(p, Signal.SIGKILL, env.deliver p Signal.SIGKILL 0)] ∧
    (stopRun env cfg (World.init fs)).world.polls.length ≤ 5 ∧
    (∀ q ∈ (stopRun env cfg (World.init fs)).world.polls, q.1 = p) ∧
    (env.deliver p Signal.SIGKILL 0 = false →
      (stopRun env cfg (World.init fs)).exitCode = 1 ∧
      (stopRun env cfg (World.init fs)).world.polls = [] ∧
      (stopRun env cfg (World.init fs)).world.removes = [] ∧
      (stopRun env cfg (World.init fs)).world.files = fs) ∧
    (env.deliver p Signal.SIGKILL 0 = true →
      ∀ k, 1 ≤ k → k ≤ 5 → (∀ j, j + 1 < k → env.alive p j = true) →
        env.alive p (k - 1) = false →
        ∃ w, stopRun env cfg (World.init fs) = Step.returned w ∧
          (stopRun env cfg (World.init fs)).exitCode = 0 ∧
          w.polls = List.replicate (k - 1) (p, true) ++ [(p, false)] ∧
          w.polls.length = k ∧
          w.out = [Msg.forceKilling p, Msg.forceKilled] ∧
          w.removes = [(cfg.pidFile, env.removeOk cfg.pidFile 0)] ∧
          (env.removeOk cfg.pidFile 0 = true → w.files cfg.pidFile = none) ∧
          (env.removeOk cfg.pidFile 0 = false → w.files = fs)) ∧
    (env.deliver p Signal.SIGKILL 0 = true →
      (∀ j, j < 5 → env.alive p j = true) →
        ∃ w, stopRun env cfg (World.init fs) = Step.returned w ∧
          w.polls = List.replicate 5 (p, true) ∧
          w.out = [Msg.forceKilling p, Msg.cannotTerminate] ∧
          w.removes = [] ∧ w.files = fs) ∧
    ((∃ q ∈ (stopRun env cfg (World.init fs)).world.polls, q.2 = false) →
      (∃ m, (stopRun env cfg (World.init fs)).world.polls
          = List.replicate m (p, true) ++ [(p, false)]) ∧
      (stopRun env cfg (World.init fs)).world.removes
        = [(cfg.pidFile, env.removeOk cfg.pidFile 0)] ∧
      (∃ w, stopRun env cfg (World.init fs) = Step.returned w) ∧
      (stopRun env cfg (World.init fs)).exitCode = 0) := by
  have hrun : stopRun env cfg (World.init fs) =
      stopForce env cfg p p (World.init fs) := by
    simp only [stopRun, hpath, if_false, hread, osFindProcess, hforce]
    simp
  rw [hrun]
  cases hk : env.deliver p Signal.SIGKILL 0 with
  | false =>
    have h : stopForce env cfg p p (World.init fs) =
        Step.exited 1
          { files := fs, out := [Msg.forceKilling p, Msg.killSendFailed], polls := [],
            signals := [(p, Signal.SIGKILL, false)], spawns := [], removes := [] } := by
      simp [stopForce, sendSignal, World.init, World.print, hk]
    rw [h]
    simp [Step.world, Step.exitCode]
  | true =>
    have h : stopForce env cfg p p (World.init fs) =
        match pollLoop env cfg.pidFile p Msg.forceKilled (List.range 5)
            { files := fs, out := [Msg.forceKilling p], polls := [],
              signals := [(p, Signal.SIGKILL, true)], spawns := [], removes := [] } with
        | PollOutcome.dead w3 => Step.returned w3
        | PollOutcome.alive w3 => Step.returned (w3.print Msg.cannotTerminate) := by
      simp [stopForce, sendSignal, World.init, World.print, hk]
    have hfirst : ∀ k, 1 ≤ k → k ≤ 5 → (∀ j, j + 1 < k → env.alive p j = true) →
        env.alive p (k - 1) = false →
        ∃ w, stopForce env cfg p p (World.init fs) = Step.returned w ∧
          (stopForce env cfg p p (World.init fs)).exitCode = 0 ∧
          w.polls = List.replicate (k - 1) (p, true) ++ [(p, false)] ∧
          w.polls.length = k ∧
          w.out = [Msg.forceKilling p, Msg.forceKilled] ∧
          w.removes = [(cfg.pidFile, env.removeOk cfg.pidFile 0)] ∧
          (env.removeOk cfg.pidFile 0 = true → w.files cfg.pidFile = none) ∧
          (env.removeOk cfg.pidFile 0 = false → w.files = fs) := by
      intro k hk1 hk5 hal hde
      have hloop := pollLoop_first_dead env cfg.pidFile p Msg.forceKilled (List.range 5)
        { files := fs, out := [Msg.forceKilling p], polls := [],
          signals := [(p, Signal.SIGKILL, true)], spawns := [], removes := [] }
        k hk1 (by simpa using hk5) (by simpa using hal) (by simpa using hde)
      rw [h, hloop]
      refine ⟨_, rfl, rfl, ?_, ?_, ?_, ?_, ?_, ?_⟩
      · simp
      · simp; omega
      · simp
      · simp
      · intro hr; simp [hr]
      · intro hr; simp [hr]
    have hall : (∀ j, j < 5 → env.alive p j = true) →
        ∃ w, stopForce env cfg p p (World.init fs) = Step.returned w ∧
          w.polls = List.replicate 5 (p, true) ∧
          w.out = [Msg.forceKilling p, Msg.cannotTerminate] ∧
          w.removes = [] ∧ w.files = fs := by
      intro hal
      have hloop := pollLoop_all_alive env cfg.pidFile p Msg.forceKilled (List.range 5)
        { files := fs, out := [Msg.forceKilling p], polls := [],
          signals := [(p, Signal.SIGKILL, true)], spawns := [], removes := [] }
        (by simpa using hal)
      rw [h, hloop]
      exact ⟨_, rfl, by simp [World.print], by simp [World.print], rfl, rfl⟩
    refine ⟨?_, ?_, ?_, ?_, fun hf => absurd hf (by simp), fun _ => hfirst,
      fun _ => hall, ?_⟩
    all_goals
      rw [h]
      rcases pollLoop_spec env cfg.pidFile p Msg.forceKilled (List.range 5)
          { files := fs, out := [Msg.forceKilling p], polls := [],
            signals := [(p, Signal.SIGKILL, true)], spawns := [], removes := [] } with
        ⟨m, hm, _, _, heq⟩ | ⟨_, heq⟩
    · rw [heq]; simp [Step.world]
    · rw [heq]; simp [Step.world, World.print]
    · rw [heq]; simp [Step.world]
    · rw [heq]; simp [Step.world, World.print]
    · rw [heq]
      simp only [List.length_range] at hm
      simp [Step.world]; omega
    · rw [heq]; simp [Step.world, World.print]
    · rw [heq]
      intro q hq
      simp [Step.world] at hq
      rcases hq with ⟨_, hq⟩ | hq <;> simp [hq]
    · rw [heq]
      intro q hq
      simp [Step.world, World.print] at hq
      simp [hq]
    · rw [heq]
      intro _
      exact ⟨⟨m, by simp [Step.world]⟩, by simp [Step.world], ⟨_, rfl⟩, rfl⟩
    · rw [heq]
      rintro ⟨q, hq, hf⟩
      simp [Step.world, World.print] at hq
      rw [hq] at hf
      exact absurd hf (by simp)

/-- C2 amended, at `--timeout 10` with a process that survives one poll after
SIGKILL and a removal that succeeds: two polls, the PID file gone, exit 0. -/
theorem stop_force_kill_only_witness :
    ∃ w, stopRun (demoEnv 1 true none) (demoConfig false true 10) (World.init fs42)
        = Step.returned w ∧
      (stopRun (demoEnv 1 true none) (demoConfig false true 10) (World.init fs42)).exitCode = 0 ∧
      w.polls = List.replicate (2 - 1) (42, true) ++ [(42, false)] ∧
      w.polls.length = 2 ∧
      w.out = [Msg.forceKilling 42, Msg.forceKilled] ∧
      w.removes = [((demoConfig false true 10).pidFile,
        (demoEnv 1 true none).removeOk (demoConfig false true 10).pidFile 0)] ∧
      ((demoEnv 1 true none).removeOk (demoConfig false true 10).pidFile 0 = true →
        w.files (demoConfig false true 10).pidFile = none) ∧
      ((demoEnv 1 true none).removeOk (demoConfig false true 10).pidFile 0 = false →
        w.files = fs42) :=
  (stop_force_kill_only (demoEnv 1 true none) (demoConfig false true 10) fs42 42
      (by decide) rfl rfl).2.2.2.2.2.1 rfl 2 (by decide) (by decide)
    (fun j hj => by simp [demoEnv]; omega) (by decide)

/-! ## `start` and `status` -/

/-- C3: `start`, with or without `--daemon`, given a PID-file path whose file
parses to a PID that the liveness probe reports alive, returns without
spawning a process and without sending a signal, and leaves the file system
(the PID file's existence and content included) exactly as it was. -/
theorem start_refuses_second_instance (env : Env) (cfg : Config) (args : List String)
    (fs : String → Option (List Byte)) (p : Int)
    (hpath : cfg.pidFile ≠ "")
    (hread : readPidFile (World.init fs) cfg.pidFile = Except.ok p)
    (halive : env.alive p 0 = true) :
    ∃ w, startRun env cfg args (World.init fs) = Step.returned w ∧
      w.spawns = [] ∧ w.signals = [] ∧ w.files = fs ∧
      w.files cfg.pidFile = fs cfg.pidFile ∧
      w.out = [Msg.alreadyRunning p] := by
  refine ⟨{ files := fs, out := [Msg.alreadyRunning p], polls := [(p, true)],
            signals := [], spawns := [], removes := [] }, ?_, rfl, rfl, rfl, rfl, rfl⟩
  simp only [startRun, if_pos hpath, hread, isProcessRunning, osFindProcess]
  simp [World.init, World.print, halive]

/-- C3 for `start --daemon` on `app.pid` holding the live PID 42. -/
theorem start_refuses_second_instance_witness :
    ∃ w, startRun (demoEnv 1 true (some 4711)) (demoConfig true false 10) ["prog"]
        (World.init fs42) = Step.returned w ∧
      w.spawns = [] ∧ w.signals = [] ∧ w.files = fs42 ∧
      w.files (demoConfig true false 10).pidFile = fs42 (demoConfig true false 10).pidFile ∧
      w.out = [Msg.alreadyRunning 42] :=
  start_refuses_second_instance (demoEnv 1 true (some 4711)) (demoConfig true false 10)
    ["prog"] fs42 42 (by decide) rfl rfl

/-- C4, the claim as stated fails: `status` on `app.pid` holding the dead PID
42, in a system where `os.Remove` fails, prints the stale-PID-file line and
exits 0 with the file still there; a second `status` prints the same stale
line again and exits 0. -/
theorem status_stale_twice_when_remove_fails :
    readPidFile (World.init fs42) "app.pid" = Except.ok 42 ∧
    (stuckEnv 0 true none).alive 42 0 = false ∧
    (statusRun (stuckEnv 0 true none) (demoConfig false false 10)
      (World.init fs42)).world.out = [Msg.staleFile 42] ∧
    (statusRun (stuckEnv 0 true none) (demoConfig false false 10)
      (World.init fs42)).world.files "app.pid" = some [52, 50] ∧
    (statusRun (stuckEnv 0 true none) (demoConfig false false 10)
      (World.init (statusRun (stuckEnv 0 true none) (demoConfig false false 10)
        (World.init fs42)).world.files)).world.out = [Msg.staleFile 42] ∧
    (statusRun (stuckEnv 0 true none) (demoConfig false false 10)
      (World.init (statusRun (stuckEnv 0 true none) (demoConfig false false 10)
        (World.init fs42)).world.files)).exitCode = 0 ∧
    (statusRun (stuckEnv 0 true none) (demoConfig false false 10)
      (World.init (statusRun (stuckEnv 0 true none) (demoConfig false false 10)
        (World.init fs42)).world.files)).world.files "app.pid" = some [52, 50] := by
  refine ⟨rfl, rfl, by decide, by decide, by decide, by decide, by decide⟩

/-- C4 amended: `status` on a PID file that parses to a PID the liveness probe
reports not alive prints the stale-PID-file line, calls `os.Remove` on the PID
file once and exits 0.  When that `os.Remove` succeeds the file is gone, and a
second `status` on the resulting files prints the plain not-running line (the
PID file cannot be read) and not the stale-file line, exits with code 1, and
there is still no PID file.  When it fails its error is discarded and the
files are left as they were, so a second `status` that again finds the PID
not alive prints the stale-file line again and exits 0. -/
theorem status_stale_then_clean (env env2 : Env) (cfg : Config)
    (fs : String → Option (List Byte)) (p : Int)
    (hpath : cfg.pidFile ≠ "")
    (hread : readPidFile (World.init fs) cfg.pidFile = Except.ok p)
    (hdead : env.alive p 0 = false) :
    (statusRun env cfg (World.init fs)).world.out = [Msg.staleFile p] ∧
    (statusRun env cfg (World.init fs)).world.removes
      = [(cfg.pidFile, env.removeOk cfg.pidFile 0)] ∧
    (statusRun env cfg (World.init fs)).exitCode = 0 ∧
    (env.removeOk cfg.pidFile 0 = true →
      (statusRun env cfg (World.init fs)).world.files cfg.pidFile = none ∧
      (statusRun env2 cfg (World.init (statusRun env cfg (World.init fs)).world.files)).world.out
        = [Msg.notRunning PidFileError.readFailed] ∧
      (∀ q, Msg.staleFile q ∉
        (statusRun env2 cfg
          (World.init (statusRun env cfg (World.init fs)).world.files)).world.out) ∧
      (statusRun env2 cfg
        (World.init (statusRun env cfg (World.init fs)).world.files)).exitCode = 1 ∧
      (statusRun env2 cfg
        (World.init (statusRun env cfg (World.init fs)).world.files)).world.files
        cfg.pidFile = none) ∧
    (env.removeOk cfg.pidFile 0 = false →
      (statusRun env cfg (World.init fs)).world.files = fs ∧
      (env2.alive p 0 = false →
        (statusRun env2 cfg
          (World.init (statusRun env cfg (World.init fs)).world.files)).world.out
          = [Msg.staleFile p] ∧
        (statusRun env2 cfg
          (World.init (statusRun env cfg (World.init fs)).world.files)).exitCode = 0)) := by
  have h1 : ∀ (e : Env), e.alive p 0 = false → statusRun e cfg (World.init fs) =
      Step.returned
        { files := if e.removeOk cfg.pidFile 0 = true
            then (fun q => if q = cfg.pidFile then none else fs q) else fs
          out := [Msg.staleFile p], polls := [(p, false)]
          signals := [], spawns := []
          removes := [(cfg.pidFile, e.removeOk cfg.pidFile 0)] } := by
    intro e he
    simp only [statusRun, hpath, if_false, hread, isProcessRunning, osFindProcess]
    simp [World.init, World.print, World.remove, he]
  have h2 : statusRun env2 cfg
      (World.init (fun q => if q = cfg.pidFile then none else fs q)) =
      Step.exited 1 { files := fun q => if q = cfg.pidFile then none else fs q
                      out := [Msg.notRunning PidFileError.readFailed], polls := []
                      signals := [], spawns := [], removes := [] } := by
    simp [statusRun, hpath, readPidFile, World.init, World.print]
  rw [h1 env hdead]
  refine ⟨rfl, rfl, rfl, ?_, ?_⟩
  · intro hr
    simp only [Step.world, hr, if_true]
    rw [h2]
    simp [Step.world, Step.exitCode]
  · intro hr
    simp only [Step.world, hr, Bool.false_eq_true, if_false]
    refine ⟨trivial, ?_⟩
    intro h2dead
    rw [h1 env2 h2dead]
    exact ⟨rfl, rfl⟩

/-- C4 amended, on `app.pid` holding the dead PID 42 with a removal that
succeeds: the second `status` prints the plain not-running line, exits 1. -/
theorem status_stale_then_clean_witness :
    (statusRun (demoEnv 0 true none) (demoConfig false false 10) (World.init fs42)).world.files
      (demoConfig false false 10).pidFile = none ∧
    (statusRun (demoEnv 5 true none) (demoConfig false false 10)
      (World.init (statusRun (demoEnv 0 true none) (demoConfig false false 10)
        (World.init fs42)).world.files)).world.out
      = [Msg.notRunning PidFileError.readFailed] ∧
    (∀ q, Msg.staleFile q ∉
      (statusRun (demoEnv 5 true none) (demoConfig false false 10)
        (World.init (statusRun (demoEnv 0 true none) (demoConfig false false 10)
          (World.init fs42)).world.files)).world.out) ∧
    (statusRun (demoEnv 5 true none) (demoConfig false false 10)
      (World.init (statusRun (demoEnv 0 true none) (demoConfig false false 10)
        (World.init fs42)).world.files)).exitCode = 1 ∧
    (statusRun (demoEnv 5 true none) (demoConfig false false 10)
      (World.init (statusRun (demoEnv 0 true none) (demoConfig false false 10)
        (World.init fs42)).world.files)).world.files
      (demoConfig false false 10).pidFile = none :=
  (status_stale_then_clean (demoEnv 0 true none) (demoEnv 5 true none)
    (demoConfig false false 10) fs42 42 (by decide) rfl rfl).2.2.2.1 rfl

/-! ## The launch step and a stale PID file -/

theorem readPidFile_ok_exists (w : World) (path : String) (v : Int)
    (h : readPidFile w path = Except.ok v) : w.files path ≠ none := by
  obtain ⟨s, hs, _⟩ := (readPid_ok_spec w path v).1 h
  rw [hs]; simp

theorem create_files_of_exists (w : World) (q path : String)
    (h : w.files path ≠ none) : (w.create q).files path = w.files path := by
  unfold World.create
  cases hq : w.files q with
  | none =>
    simp only [World.store]
    by_cases hpq : path = q
    · subst hpq; exact absurd hq h
    · simp [hpq]
  | some _ => rfl

theorem create_spawns (w : World) (q : String) : (w.create q).spawns = w.spawns := by
  unfold World.create
  cases w.files q <;> rfl

theorem create_removes (w : World) (q : String) : (w.create q).removes = w.removes := by
  unfold World.create
  cases w.files q <;> rfl

/-- What the launch step does to an existing PID file, from a state in which
nothing was spawned or removed yet. -/
theorem launch_pid_file (env : Env) (cfg : Config) (a : String) (b : List String)
    (w : World) (hpath : cfg.pidFile ≠ "") (hex : w.files cfg.pidFile ≠ none)
    (hsp : w.spawns = []) (hrm : w.removes = []) :
    ((∀ argv q, (argv, some q) ∉ (launch env cfg a b w).world.spawns) →
      (launch env cfg a b w).exitCode = 1 ∧
      (launch env cfg a b w).world.files cfg.pidFile = w.files cfg.pidFile) ∧
    (∀ argv q, (argv, some q) ∈ (launch env cfg a b w).world.spawns →
      env.writeOk cfg.pidFile = true →
      (launch env cfg a b w).world.files cfg.pidFile
        = if cfg.daemonize = true then some (Itoa q)
          else if env.removeOk cfg.pidFile 0 = true then none else some (Itoa q)) := by
  have hw1 : ∀ w1 : World, w1 = (if cfg.logFile ≠ "" then w.create cfg.logFile else w) →
      w1.files cfg.pidFile = w.files cfg.pidFile ∧ w1.spawns = [] ∧ w1.removes = [] := by
    intro w1 h1
    subst h1
    by_cases hl : cfg.logFile ≠ ""
    · rw [if_pos hl]
      exact ⟨create_files_of_exists w _ _ hex, by rw [create_spawns, hsp],
        by rw [create_removes, hrm]⟩
    · rw [if_neg hl]; exact ⟨rfl, hsp, hrm⟩
  obtain ⟨hf1, hs1, hr1⟩ := hw1 _ rfl
  cases hd : cfg.daemonize with
  | false =>
    simp only [launch, hd, startProgram, Bool.false_eq_true, if_false]
    by_cases hlog : cfg.logFile ≠ "" ∧ env.openOk cfg.logFile = false
    · rw [if_pos hlog]
      simp [Step.world, Step.exitCode, World.print, hsp]
    · rw [if_neg hlog]
      generalize (if cfg.logFile ≠ "" then w.create cfg.logFile else w) = w1 at hf1 hs1 hr1 ⊢
      cases hps : env.procStart (a :: b) with
      | none =>
        simp [Step.world, Step.exitCode, World.print, World.spawn, hs1, hf1]
      | some q =>
        simp only [Step.world, Step.exitCode, if_pos hpath]
        by_cases hwr : env.writeOk cfg.pidFile = true <;> cases hwt : env.waitOk <;>
          cases hro : env.removeOk cfg.pidFile 0 <;>
          cases hwp : env.writePartial cfg.pidFile <;>
          simp [writePidFile, hwr, hwp, hro, World.store, World.print, World.spawn,
            World.remove, hs1, hr1]
  | true =>
    simp only [launch, hd, startAsDaemon, if_true]
    by_cases hlog : cfg.logFile ≠ "" ∧ env.openOk cfg.logFile = false
    · rw [if_pos hlog]
      simp [Step.world, Step.exitCode, World.print, hsp]
    · rw [if_neg hlog]
      by_cases hnull : cfg.logFile = "" ∧ env.openOk "/dev/null" = false
      · rw [if_pos hnull]
        simp [Step.world, Step.exitCode, World.print, hsp]
      · rw [if_neg hnull]
        generalize (if cfg.logFile ≠ "" then w.create cfg.logFile else w) = w1 at hf1 hs1 hr1 ⊢
        cases hps : env.procStart (daemonArgv cfg.self a b) with
        | none =>
          simp [Step.world, Step.exitCode, World.print, World.spawn, hs1, hf1]
        | some q =>
          simp only [Step.world, Step.exitCode, if_pos hpath]
          by_cases hwr : env.writeOk cfg.pidFile = true <;>
            cases hwp : env.writePartial cfg.pidFile <;>
            simp [writePidFile, hwr, hwp, World.store, World.print, World.spawn, hs1]

theorem startRun_stale (env : Env) (cfg : Config) (args : List String)
    (fs : String → Option (List Byte)) (p : Int)
    (hpath : cfg.pidFile ≠ "")
    (hread : readPidFile (World.init fs) cfg.pidFile = Except.ok p)
    (hdead : env.alive p 0 = false) :
    startRun env cfg args (World.init fs) =
      launch env cfg (argPath args) (argRest args)
        { files := fs, out := [], polls := [(p, false)], signals := [], spawns := [], removes := [] } := by
  simp only [startRun, if_pos hpath, hread, isProcessRunning, osFindProcess]
  simp [World.init, hdead]

theorem restartRun_stale (env : Env) (cfg : Config) (args : List String)
    (fs : String → Option (List Byte)) (p : Int)
    (hpath : cfg.pidFile ≠ "")
    (hread : readPidFile (World.init fs) cfg.pidFile = Except.ok p)
    (hdead : env.alive p 0 = false) :
    restartRun env cfg args (World.init fs) =
      launch env cfg (argPath args) (argRest args)
        { files := fs, out := [Msg.starting], polls := [(p, false)], signals := [],
          spawns := [], removes := [] } := by
  simp only [restartRun, restartStopPhase, if_neg hpath, hread, isProcessRunning,
    osFindProcess]
  simp [World.init, World.print, hdead]

/-- C6, the claim as stated fails: with `app.pid` holding the live PID 42 and
a SIGTERM that cannot be delivered, `restart` exits with code 1 and spawns
nothing. -/
theorem restart_undelivered_sigterm_exits :
    (restartRun (demoEnv 1 false (some 4711)) (demoConfig false false 10) ["prog"]
      (World.init fs42)).world.signals = [(42, Signal.SIGTERM, false)] ∧
    (restartRun (demoEnv 1 false (some 4711)) (demoConfig false false 10) ["prog"]
      (World.init fs42)).exitCode = 1 ∧
    (restartRun (demoEnv 1 false (some 4711)) (demoConfig false false 10) ["prog"]
      (World.init fs42)).world.spawns = [] := by
  decide

/-- C6 amended: when `restart` finds the PID `p` of the PID file alive and the
SIGTERM it then sends cannot be delivered, it prints the send failure and exits
with code 1; it does not reach the launch step (nothing is spawned, the
"starting" line is not printed) and the files are left as they were. -/
theorem restart_exits_when_sigterm_undelivered (env : Env) (cfg : Config)
    (args : List String) (fs : String → Option (List Byte)) (p : Int)
    (hpath : cfg.pidFile ≠ "")
    (hread : readPidFile (World.init fs) cfg.pidFile = Except.ok p)
    (halive : env.alive p 0 = true)
    (hfail : env.deliver p Signal.SIGTERM 0 = false) :
    restartStopPhase env cfg (World.init fs) =
      Step.exited 1 { files := fs, out := [Msg.stopping p, Msg.termSendFailed],
                      polls := [(p, true)], signals := [(p, Signal.SIGTERM, false)],
                      spawns := [], removes := [] } ∧
    (restartRun env cfg args (World.init fs)).exitCode = 1 ∧
    (restartRun env cfg args (World.init fs)).world.spawns = [] ∧
    (restartRun env cfg args (World.init fs)).world.out
      = [Msg.stopping p, Msg.termSendFailed] ∧
    (restartRun env cfg args (World.init fs)).world.files = fs := by
  have h : restartStopPhase env cfg (World.init fs) =
      Step.exited 1 { files := fs, out := [Msg.stopping p, Msg.termSendFailed],
                      polls := [(p, true)], signals := [(p, Signal.SIGTERM, false)],
                      spawns := [], removes := [] } := by
    simp only [restartStopPhase, if_neg hpath, hread, isProcessRunning, osFindProcess,
      sendSignal]
    simp [World.init, World.print, halive, hfail]
  refine ⟨h, ?_⟩
  simp only [restartRun, h]
  simp [Step.world, Step.exitCode]

/-- C6 amended, on `app.pid` holding the live PID 42. -/
theorem restart_exits_when_sigterm_undelivered_witness :
    (restartRun (demoEnv 1 false (some 4711)) (demoConfig true false 10) ["prog"]
      (World.init fs42)).exitCode = 1 ∧
    (restartRun (demoEnv 1 false (some 4711)) (demoConfig true false 10) ["prog"]
      (World.init fs42)).world.spawns = [] :=
  ⟨(restart_exits_when_sigterm_undelivered (demoEnv 1 false (some 4711))
      (demoConfig true false 10) ["prog"] fs42 42 (by decide) rfl rfl rfl).2.1,
   (restart_exits_when_sigterm_undelivered (demoEnv 1 false (some 4711))
      (demoConfig true false 10) ["prog"] fs42 42 (by decide) rfl rfl rfl).2.2.1⟩

/-- C7, the claim as stated fails: `start` on `app.pid` holding the dead PID
42, with a spawn that fails, exits with code 1 and the file still holds 42. -/
theorem start_failed_spawn_keeps_stale_pid :
    readPidFile (World.init fs42) "app.pid" = Except.ok 42 ∧
    (demoEnv 0 true none).alive 42 0 = false ∧
    (startRun (demoEnv 0 true none) (demoConfig false false 10) ["prog"]
      (World.init fs42)).exitCode = 1 ∧
    (startRun (demoEnv 0 true none) (demoConfig false false 10) ["prog"]
      (World.init fs42)).world.files "app.pid" = some [52, 50] ∧
    readPidFile (startRun (demoEnv 0 true none) (demoConfig false false 10) ["prog"]
      (World.init fs42)).world "app.pid" = Except.ok 42 := by
  refine ⟨rfl, rfl, by decide, by decide, rfl⟩

/-- C7 amended: when the PID file parses to a PID the liveness probe reports
not alive, the pre-start check of `start` and of `restart` deletes nothing:
the launch step is entered with the files unchanged.  If the launch spawns no
process, the command exits with code 1 and the PID file still has its stale
content.  After a successful spawn whose PID write succeeds, the file holds
the new PID in daemon mode; in foreground mode `os.Remove` is called once the
child has exited, and the file is gone when that call succeeds and still holds
the new PID when it fails (the error is discarded). -/
theorem stale_pid_file_kept_until_spawn (env : Env) (cfg : Config)
    (args : List String) (fs : String → Option (List Byte)) (p : Int)
    (hpath : cfg.pidFile ≠ "")
    (hread : readPidFile (World.init fs) cfg.pidFile = Except.ok p)
    (hdead : env.alive p 0 = false) :
    startRun env cfg args (World.init fs) =
      launch env cfg (argPath args) (argRest args)
        { files := fs, out := [], polls := [(p, false)], signals := [], spawns := [], removes := [] } ∧
    restartRun env cfg args (World.init fs) =
      launch env cfg (argPath args) (argRest args)
        { files := fs, out := [Msg.starting], polls := [(p, false)], signals := [],
          spawns := [], removes := [] } ∧
    ((∀ argv q, (argv, some q) ∉ (startRun env cfg args (World.init fs)).world.spawns) →
      (startRun env cfg args (World.init fs)).exitCode = 1 ∧
      (startRun env cfg args (World.init fs)).world.files cfg.pidFile = fs cfg.pidFile) ∧
    ((∀ argv q, (argv, some q) ∉ (restartRun env cfg args (World.init fs)).world.spawns) →
      (restartRun env cfg args (World.init fs)).exitCode = 1 ∧
      (restartRun env cfg args (World.init fs)).world.files cfg.pidFile = fs cfg.pidFile) ∧
    (∀ argv q, (argv, some q) ∈ (startRun env cfg args (World.init fs)).world.spawns →
      env.writeOk cfg.pidFile = true →
      (startRun env cfg args (World.init fs)).world.files cfg.pidFile
        = if cfg.daemonize = true then some (Itoa q)
          else if env.removeOk cfg.pidFile 0 = true then none else some (Itoa q)) ∧
    (∀ argv q, (argv, some q) ∈ (restartRun env cfg args (World.init fs)).world.spawns →
      env.writeOk cfg.pidFile = true →
      (restartRun env cfg args (World.init fs)).world.files cfg.pidFile
        = if cfg.daemonize = true then some (Itoa q)
          else if env.removeOk cfg.pidFile 0 = true then none else some (Itoa q)) := by
  have hex : fs cfg.pidFile ≠ none := readPidFile_ok_exists _ _ _ hread
  have hs := startRun_stale env cfg args fs p hpath hread hdead
  have hr := restartRun_stale env cfg args fs p hpath hread hdead
  have ls := launch_pid_file env cfg (argPath args) (argRest args)
    { files := fs, out := [], polls := [(p, false)], signals := [], spawns := [], removes := [] }
    hpath hex rfl rfl
  have lr := launch_pid_file env cfg (argPath args) (argRest args)
    { files := fs, out := [Msg.starting], polls := [(p, false)], signals := [],
      spawns := [], removes := [] } hpath hex rfl rfl
  rw [← hs] at ls
  rw [← hr] at lr
  exact ⟨hs, hr, ls.1, lr.1, ls.2, lr.2⟩

/-- C7 amended, on `app.pid` holding the dead PID 42 with a spawn that fails. -/
theorem stale_pid_file_kept_until_spawn_witness :
    (startRun (demoEnv 0 true none) (demoConfig true false 10) ["prog"]
      (World.init fs42)).exitCode = 1 ∧
    (startRun (demoEnv 0 true none) (demoConfig true false 10) ["prog"]
      (World.init fs42)).world.files (demoConfig true false 10).pidFile
      = fs42 (demoConfig true false 10).pidFile :=
  (stale_pid_file_kept_until_spawn (demoEnv 0 true none) (demoConfig true false 10)
    ["prog"] fs42 42 (by decide) rfl rfl).2.2.1
    (fun argv q h => by
      have hsp : (startRun (demoEnv 0 true none) (demoConfig true false 10) ["prog"]
          (World.init fs42)).world.spawns = [(["procmanager", "start", "prog"], none)] := by
        decide
      rw [hsp] at h
      simp at h)

/-! ## `restart` and the daemon argument vector -/

theorem restartLoop_returned (env : Env) (cfg : Config) (pid process : Int) :
    ∀ (len a : Nat) (w w' : World), (a : Int) + (len : Int) = cfg.timeout →
      restartLoop env cfg pid process (List.range' a len) w = Step.returned w' →
      (len = 0 ∧ w' = w) ∨ w'.polls.getLast? = some (pid, false) := by
  intro len
  induction len with
  | zero =>
    intro a w w' _ h
    left
    simp only [List.range', restartLoop, Step.returned.injEq] at h
    exact ⟨rfl, h.symm⟩
  | succ len ih =>
    intro a w w' ha h
    right
    have hr : List.range' a (len + 1) = a :: List.range' (a + 1) len := rfl
    rw [hr, restartLoop] at h
    cases hal : env.alive pid w.polls.length with
    | false =>
      simp only [isProcessRunning, osFindProcess, hal, Step.returned.injEq] at h
      rw [← h]
      simp [World.print, World.remove]
    | true =>
      simp only [isProcessRunning, osFindProcess, hal] at h
      by_cases hlast : (a : Int) = cfg.timeout - 1
      · rw [if_pos hlast] at h
        have hlen : len = 0 := by omega
        subst hlen
        simp only [sendSignal, World.print, List.length_append, List.length_singleton] at h
        cases hal2 : env.alive pid (w.polls.length + 1) with
        | false =>
          simp only [hal2, List.range', restartLoop, Step.returned.injEq] at h
          rw [← h]
          simp [World.remove]
        | true =>
          simp [hal2] at h
      · rw [if_neg hlast] at h
        have := ih (a + 1) _ w' (by push_cast; omega) h
        rcases this with ⟨h0, _⟩ | h1
        · omega
        · exact h1

/-- With `--timeout` at least 1, `restart` reaches its launch step only when
the PID file could not be read or the most recent probe found the tracked
process not alive. -/
theorem restart_launch_after_dead_of_pos_timeout (env : Env) (cfg : Config)
    (fs : String → Option (List Byte)) (w : World) (hpos : 1 ≤ cfg.timeout)
    (h : restartStopPhase env cfg (World.init fs) = Step.returned w) :
    (∃ e, readPidFile (World.init fs) cfg.pidFile = Except.error e) ∨
    (∃ p, readPidFile (World.init fs) cfg.pidFile = Except.ok p ∧
      w.polls.getLast? = some (p, false)) := by
  unfold restartStopPhase at h
  by_cases hpath : cfg.pidFile = ""
  · rw [if_pos hpath] at h; simp at h
  · rw [if_neg hpath] at h
    cases hread : readPidFile (World.init fs) cfg.pidFile with
    | error e => exact Or.inl ⟨e, rfl⟩
    | ok p =>
      right
      refine ⟨p, rfl, ?_⟩
      rw [hread] at h
      cases hal : env.alive p 0 with
      | false =>
        simp [isProcessRunning, osFindProcess, World.init, hal] at h
        rw [← h]; simp
      | true =>
        cases hdel : env.deliver p Signal.SIGTERM 0 with
        | false =>
          simp [isProcessRunning, osFindProcess, sendSignal, World.init, World.print,
            hal, hdel] at h
        | true =>
          simp only [isProcessRunning, osFindProcess, sendSignal, World.init, World.print,
            List.length_nil, hal, hdel, List.range_eq_range'] at h
          rcases restartLoop_returned env cfg p p cfg.timeout.toNat 0 _ w
              (by push_cast; omega) h with ⟨h0, _⟩ | h1
          · omega
          · exact h1

/-- With `--timeout` zero or negative, a live tracked process that accepts
SIGTERM is never probed again: `restart` goes on to its launch step with the
one probe it made reporting the process alive. -/
theorem restart_nonpos_timeout_skips_wait (env : Env) (cfg : Config)
    (fs : String → Option (List Byte)) (p : Int) (hle : cfg.timeout ≤ 0)
    (hpath : cfg.pidFile ≠ "")
    (hread : readPidFile (World.init fs) cfg.pidFile = Except.ok p)
    (halive : env.alive p 0 = true)
    (hterm : env.deliver p Signal.SIGTERM 0 = true) :
    restartStopPhase env cfg (World.init fs) =
      Step.returned { files := fs, out := [Msg.stopping p], polls := [(p, true)],
                      signals := [(p, Signal.SIGTERM, true)], spawns := [], removes := [] } := by
  have ht : cfg.timeout.toNat = 0 := by omega
  simp only [restartStopPhase, if_neg hpath, hread, isProcessRunning, osFindProcess,
    sendSignal, ht, List.range_zero]
  simp [World.init, World.print, halive, hterm, restartLoop]

/-- The stripping loop removes one element at most: when the vector holds at
most one daemon flag, none is left. -/
theorem stripDaemonFlag_clean_of_count_le_one (argv : List String)
    (h : (argv.filter (fun a => decide (a = "-d" ∨ a = "--daemon"))).length ≤ 1) :
    ∀ a ∈ stripDaemonFlag argv, ¬ (a = "-d" ∨ a = "--daemon") := by
  induction argv with
  | nil => intro a ha; simp [stripDaemonFlag] at ha
  | cons x rest ih =>
    intro a ha
    by_cases hx : x = "-d" ∨ x = "--daemon"
    · rw [stripDaemonFlag, if_pos hx] at ha
      have h0 : (rest.filter (fun a => decide (a = "-d" ∨ a = "--daemon"))).length = 0 := by
        simp only [List.filter_cons, hx, decide_True, if_true, List.length_cons] at h
        omega
      have hnil := List.length_eq_zero.1 h0
      intro hflag
      have : a ∈ rest.filter (fun a => decide (a = "-d" ∨ a = "--daemon")) :=
        List.mem_filter.2 ⟨ha, by simpa using hflag⟩
      rw [hnil] at this
      exact absurd this (by simp)
    · rw [stripDaemonFlag, if_neg hx] at ha
      simp only [List.filter_cons, hx, decide_False, Bool.false_eq_true, if_false] at h
      rcases List.mem_cons.1 ha with rfl | hr
      · exact hx
      · exact ih h a hr

end Procmanager
